import Mathlib

/-!
Shallow embedding of the bulk lead-import pipeline of the global-connect-crm
repository (server routes module: `processBulkLeadImport` and its helper
functions).  Field values coming from the unvetted input rows are modelled as
`Option String`; JavaScript string primitives (`trim`, `toLowerCase`,
`includes`, regex character-class replaces) are re-implemented over `List Char`
with JS semantics.  External collaborators — the persistence store, the system
clock and the JS `Date` parser — are parameters of the model.  Exceptions
thrown by store operations are modelled by `Except` with a JS-value payload:
a thrown `null`/`undefined` makes the row-level catch handler itself throw
while reading `.message`, which is exactly the path that reaches the
defensive chunk-level catch in the source.
-/

namespace GCRM

/-- Models the JS `\d` character class (ASCII digits). -/
def isDig (c : Char) : Bool := decide (48 ≤ c.toNat ∧ c.toNat ≤ 57)

/-- Models JS `toLowerCase` for one character (ASCII range, which is all the
pipeline's fixed tables use). -/
def jsLowerChar (c : Char) : Char :=
  if 65 ≤ c.toNat ∧ c.toNat ≤ 90 then Char.ofNat (c.toNat + 32) else c

/-- Characters removed by JS `String.prototype.trim` (common subset). -/
def jsWS (c : Char) : Bool :=
  decide (c = ' ' ∨ c = '\t' ∨ c = '\n' ∨ c = '\r')

/-- Models JS `toLowerCase` on a whole string. -/
def jsLower (s : String) : String := ⟨s.data.map jsLowerChar⟩

/-- Models JS `trim`: strip leading and trailing whitespace. -/
def jsTrim (s : String) : String :=
  ⟨((s.data.dropWhile jsWS).reverse.dropWhile jsWS).reverse⟩

/-- Build a string from a character list. -/
def strOf (l : List Char) : String := ⟨l⟩

/-- Truthiness of `s && s.trim()` for a present string field: the trimmed
value is non-empty. -/
def nonBlankStr (s : String) : Bool := !(jsTrim s).data.isEmpty

/-- Truthiness of `raw.f && raw.f.trim()` for an optional field. -/
def nonBlank (o : Option String) : Bool :=
  match o with
  | some s => nonBlankStr s
  | none => false

/-- Models `x && x.trim() ? x.trim() : null` (used for the optional free-text
passthrough fields). -/
def optTrim (o : Option String) : Option String :=
  if nonBlank o then some (jsTrim (o.getD "")) else none

/-- Does `needle` occur at the start of `hay`?  (Helper for `hasSub`.) -/
def pfx : List Char → List Char → Bool
  | [], _ => true
  | _ :: _, [] => false
  | a :: as, b :: bs => if a = b then pfx as bs else false

/-- Models JS `hay.includes(needle)` : `hasSub needle hay`. -/
def hasSub (needle : List Char) : List Char → Bool
  | [] => pfx needle []
  | c :: t => pfx needle (c :: t) || hasSub needle t

/-- Split a character list at the first occurrence of `sep`, if any. -/
def splitFirst (sep : Char) : List Char → Option (List Char × List Char)
  | [] => none
  | c :: t =>
    if c = sep then some ([], t)
    else (splitFirst sep t).map (fun p => (c :: p.1, p.2))

/-- Models the e-mail validation regex of the source,
`^[^\s@]+@[^\s@]+\.[^\s@]+$`: exactly one `@`, a non-empty whitespace-free
local part, and a domain part containing a dot with at least one character on
each side. -/
def emailShape (s : String) : Bool :=
  match splitFirst '@' s.data with
  | none => false
  | some (a, b) =>
    !a.isEmpty && a.all (fun c => !jsWS c) &&
    !(b.contains '@') && b.all (fun c => !jsWS c) &&
    ((b.drop 1).dropLast.contains '.')

/-- Last six characters of a list (JS `slice(-6)` on a string). -/
def last6 (l : List Char) : List Char := l.drop (l.length - 6)

/-- Left-pad with zeroes to length six (JS `padStart(6, '0')`). -/
def pad6 (l : List Char) : List Char := List.replicate (6 - l.length) '0' ++ l

/-- Models the rewrite `replace(/(\d{2})\/(\d{2})\/(\d{4})/, '$3-$2-$1')`:
replace the leftmost `DD/MM/YYYY` shaped substring with `YYYY-MM-DD`. -/
def rwSlash : List Char → List Char
  | a :: b :: '/' :: c :: d :: '/' :: e :: f :: g :: h :: rest =>
    if isDig a && isDig b && isDig c && isDig d &&
       isDig e && isDig f && isDig g && isDig h then
      e :: f :: g :: h :: '-' :: c :: d :: '-' :: a :: b :: rest
    else a :: rwSlash (b :: '/' :: c :: d :: '/' :: e :: f :: g :: h :: rest)
  | a :: rest => a :: rwSlash rest
  | [] => []

/-- Models the rewrite `replace(/(\d{2})-(\d{2})-(\d{4})/, '$3-$2-$1')`. -/
def rwDash : List Char → List Char
  | a :: b :: '-' :: c :: d :: '-' :: e :: f :: g :: h :: rest =>
    if isDig a && isDig b && isDig c && isDig d &&
       isDig e && isDig f && isDig g && isDig h then
      e :: f :: g :: h :: '-' :: c :: d :: '-' :: a :: b :: rest
    else a :: rwDash (b :: '-' :: c :: d :: '-' :: e :: f :: g :: h :: rest)
  | a :: rest => a :: rwDash rest
  | [] => []

/-- Models the rewrite `replace(/(\d{4})(\d{2})(\d{2})/, '$1-$2-$3')`. -/
def rwCompact : List Char → List Char
  | a :: b :: c :: d :: e :: f :: g :: h :: rest =>
    if isDig a && isDig b && isDig c && isDig d &&
       isDig e && isDig f && isDig g && isDig h then
      a :: b :: c :: d :: '-' :: e :: f :: '-' :: g :: h :: rest
    else a :: rwCompact (b :: c :: d :: e :: f :: g :: h :: rest)
  | a :: rest => a :: rwCompact rest
  | [] => []

/-- Environment of the run: the system clock sampled by `Date.now()` /
`new Date()`, the clock at batch end, the current calendar year, and the JS
`new Date(string)` parser (platform behaviour, modelled abstractly: `none`
stands for an invalid date). -/
structure Env where
  nowMs : Nat
  endMs : Nat
  yearNow : Nat
  parseDate : String → Option Nat

/-- A raw input row: an untyped record whose fields may all be absent. -/
structure RawLead where
  uid : Option String := none
  studentName : Option String := none
  name : Option String := none
  currentStage : Option String := none
  leadCreatedDate : Option String := none
  intake : Option String := none
  country : Option String := none
  mobileNumber : Option String := none
  phone : Option String := none
  email : Option String := none
  source : Option String := none
  passportStatus : Option String := none
  remarks : Option String := none
  counsellors : Option String := none
  deriving DecidableEq, Repr

/-- Per-row outcome classification. -/
inductive RowStatus where
  | imported
  | importedWithIssues
  | failed
  deriving DecidableEq, Repr

/-- Canonical normalized representation of one row. -/
structure NormalizedLead where
  uid : String
  name : String
  currentStage : String
  leadCreatedDate : Nat
  intake : Option String
  country : Option String
  phone : Option String
  email : Option String
  source : Option String
  passportStatus : Option String
  remarks : Option String
  counsellors : Option String
  deriving DecidableEq, Repr

/-- Result of the business-rule engine for one row. -/
structure BizResult where
  counselorId : Option Nat
  currentStage : String
  deriving DecidableEq, Repr

/-- The merged `{...normalized, ...businessLogicResult}` object stored into
the row log's `normalizedData`. -/
structure NormalizedData where
  base : NormalizedLead
  counselorId : Option Nat
  currentStage : String
  deriving DecidableEq, Repr

/-- One row of the per-field issue tally. -/
structure FieldIssue where
  count : Nat
  samples : List String
  deriving DecidableEq, Repr

/-- The batch-wide `fieldIssues` map (insertion-ordered, as a JS object). -/
abbrev FieldIssues := List (String × FieldIssue)

/-- One entry of the validation log. -/
structure ValidationLog where
  rowNumber : Nat
  status : RowStatus
  fixesApplied : List String
  warnings : List String
  errors : List String
  originalData : RawLead
  normalizedData : Option NormalizedData
  deriving DecidableEq, Repr

/-- Append a fixes-applied note. -/
def pushFix (log : ValidationLog) (m : String) : ValidationLog :=
  {log with fixesApplied := log.fixesApplied ++ [m]}

/-- Append a warning. -/
def pushWarn (log : ValidationLog) (m : String) : ValidationLog :=
  {log with warnings := log.warnings ++ [m]}

/-- Append an error. -/
def pushErr (log : ValidationLog) (m : String) : ValidationLog :=
  {log with errors := log.errors ++ [m]}

/-- Models `addFieldIssue`: bump the per-field counter, recording at most the
first five sample messages; unknown fields are appended to the map. -/
def addFieldIssue (fi : FieldIssues) (name issue : String) : FieldIssues :=
  if (List.find? (fun kv => decide (kv.1 = name)) fi).isSome then
    List.map (fun kv =>
      if kv.1 = name then
        (kv.1, { count := kv.2.count + 1,
                 samples := if kv.2.samples.length < 5
                            then kv.2.samples ++ [issue] else kv.2.samples })
      else kv) fi
  else fi ++ [(name, ⟨1, [issue]⟩)]

/-- The freshly initialised per-row log object. -/
def initLog (rowNumber : Nat) (raw : RawLead) : ValidationLog :=
  { rowNumber := rowNumber, status := .imported, fixesApplied := [],
    warnings := [], errors := [], originalData := raw, normalizedData := none }

/-- Season keyword table of `normalizeIntake`, in object insertion order
(the loop takes the first key found as a substring). -/
def seasonPairs : List (String × String) :=
  [("fall", "Fall"), ("autumn", "Fall"), ("sep", "Fall"), ("september", "Fall"),
   ("spring", "Spring"), ("jan", "Spring"), ("january", "Spring"),
   ("summer", "Summer"), ("may", "Summer"), ("jun", "Summer"),
   ("winter", "Winter"), ("dec", "Winter"), ("december", "Winter")]

/-- Country alias table of `normalizeCountry`. -/
def countryPairs : List (String × String) :=
  [("united states", "US"), ("usa", "US"), ("america", "US"),
   ("united states of america", "US"),
   ("united kingdom", "GB"), ("uk", "GB"), ("england", "GB"), ("britain", "GB"),
   ("germany", "DE"), ("deutschland", "DE"),
   ("france", "FR"), ("francia", "FR"),
   ("india", "IN"), ("bharat", "IN"),
   ("china", "CN"), ("prc", "CN"),
   ("canada", "CA"),
   ("australia", "AU"), ("aus", "AU"),
   ("japan", "JP"), ("nippon", "JP"),
   ("south korea", "KR"), ("korea", "KR"),
   ("brazil", "BR"), ("brasil", "BR"),
   ("mexico", "MX"), ("méxico", "MX"),
   ("russia", "RU"), ("russian federation", "RU")]

/-- JS object lookup `table[key]` on an association list with distinct keys. -/
def lookupStr (pairs : List (String × String)) (key : String) : Option String :=
  (List.find? (fun kv => decide (kv.1 = key)) pairs).map (·.2)

/-- Leftmost match of the regex `\d{4}`: the first four consecutive digits. -/
def firstMatch4 : List Char → Option (List Char)
  | c0 :: c1 :: c2 :: c3 :: rest =>
    if isDig c0 && isDig c1 && isDig c2 && isDig c3 then some [c0, c1, c2, c3]
    else firstMatch4 (c1 :: c2 :: c3 :: rest)
  | _ => none

/-- Models `normalizeIntake`: lower-case, extract a 4-digit year (default:
next calendar year, with a fix), find the first season keyword occurring as a
substring (default Fall, with a fix), emit `year-Season`, and record a fix and
a field issue when the output differs from the input. -/
def normalizeIntake (env : Env) (intake : String) (log : ValidationLog)
    (fi : FieldIssues) : String × ValidationLog × FieldIssues :=
  let original := intake
  let normalized := jsLower intake
  let yearStep : String × ValidationLog :=
    match firstMatch4 normalized.data with
    | some ds => (strOf ds, log)
    | none =>
      let y := toString (env.yearNow + 1)
      (y, pushFix log ("Added missing year " ++ y ++ " to intake"))
  let seasonStep : String × ValidationLog :=
    match List.find? (fun kv => hasSub kv.1.data normalized.data) seasonPairs with
    | some kv => (kv.2, yearStep.2)
    | none => ("Fall", pushFix yearStep.2 "Added default season Fall to intake")
  let result := yearStep.1 ++ "-" ++ seasonStep.1
  if result = original then (result, seasonStep.2, fi)
  else
    (result,
     pushFix seasonStep.2
       ("Normalized intake from \"" ++ original ++ "\" to \"" ++ result ++ "\""),
     addFieldIssue fi "intake" ("Normalized: " ++ original ++ " → " ++ result))

/-- Models `normalizeCountry`: look the lower-cased trimmed string up in the
alias table; on a hit return the ISO code (with a fix when it differs from the
input), otherwise return the input unchanged with a warning. -/
def normalizeCountry (country : String) (log : ValidationLog)
    (fi : FieldIssues) : String × ValidationLog × FieldIssues :=
  let original := country
  let normalized := jsTrim (jsLower country)
  match lookupStr countryPairs normalized with
  | some mapped =>
    if mapped = original then (mapped, log, fi)
    else
      (mapped,
       pushFix log ("Normalized country from \"" ++ original ++ "\" to \"" ++
         mapped ++ "\""),
       addFieldIssue fi "country" ("Normalized: " ++ original ++ " → " ++ mapped))
  | none =>
    (original,
     pushWarn log ("Country \"" ++ original ++
       "\" could not be normalized to ISO code"),
     addFieldIssue fi "country" ("Unknown country: " ++ original))

/-- Models `normalizePhone`: delete every character outside the class
`[\d+]` (note: every `+` survives, wherever it occurs), warn when fewer than
ten digits remain, and record a fix when cleaning changed the string. -/
def normalizePhone (phone : String) (log : ValidationLog)
    (fi : FieldIssues) : String × ValidationLog × FieldIssues :=
  let original := phone
  let normalized := strOf (phone.data.filter (fun c => isDig c || decide (c = '+')))
  let digitCount := (normalized.data.filter isDig).length
  let warnStep : ValidationLog × FieldIssues :=
    if digitCount < 10 then
      (pushWarn log ("Phone number \"" ++ original ++ "\" appears to be too short"),
       addFieldIssue fi "phone" ("Too short: " ++ original))
    else (log, fi)
  if normalized = original then (normalized, warnStep.1, warnStep.2)
  else
    (normalized,
     pushFix warnStep.1
       ("Cleaned phone number from \"" ++ original ++ "\" to \"" ++ normalized ++ "\""),
     warnStep.2)

/-- Models `normalizeEmail`: lower-case and trim, validate the shape, return
`null` with a warning when invalid, otherwise the cleaned value with a fix
when cleaning changed it. -/
def normalizeEmail (email : String) (log : ValidationLog)
    (fi : FieldIssues) : Option String × ValidationLog × FieldIssues :=
  let original := email
  let normalized := jsTrim (jsLower email)
  if !emailShape normalized then
    (none,
     pushWarn log ("Email \"" ++ original ++ "\" appears to be invalid format"),
     addFieldIssue fi "email" ("Invalid format: " ++ original))
  else if normalized = original then (some normalized, log, fi)
  else
    (some normalized,
     pushFix log ("Normalized email from \"" ++ original ++ "\" to \"" ++
       normalized ++ "\""),
     fi)

/-- UID generation for a missing uid:
`UID-` + `Date.now().toString().slice(-6).padStart(6,'0')`. -/
def uidGen (env : Env) : String :=
  strOf ("UID-".data ++ pad6 (last6 (toString env.nowMs).data))

/-- The date-recovery cascade: direct parse, then the three format rewrites in
order, first success wins. -/
def parseLeadDate (env : Env) (s : String) : Option Nat :=
  match env.parseDate s with
  | some t => some t
  | none =>
    match env.parseDate (strOf (rwSlash s.data)) with
    | some t => some t
    | none =>
      match env.parseDate (strOf (rwDash s.data)) with
      | some t => some t
      | none => env.parseDate (strOf (rwCompact s.data))

/-- UID handling step of `normalizeAndValidateLead`. -/
def normUid (env : Env) (raw : RawLead) (log : ValidationLog)
    (fi : FieldIssues) : String × ValidationLog × FieldIssues :=
  if nonBlank raw.uid then (jsTrim (raw.uid.getD ""), log, fi)
  else
    (uidGen env, pushFix log "Generated missing UID",
     addFieldIssue fi "uid" "Missing UID - generated automatically")

/-- Name handling step: `studentName` alias first, then `name`, else a
sentinel default together with an error and a fix note. -/
def normName (raw : RawLead) (log : ValidationLog)
    (fi : FieldIssues) : String × ValidationLog × FieldIssues :=
  if nonBlank raw.studentName then (jsTrim (raw.studentName.getD ""), log, fi)
  else if nonBlank raw.name then (jsTrim (raw.name.getD ""), log, fi)
  else
    ("Unknown Student",
     pushFix (pushErr log "Missing required student name")
       "Set default name for missing student name",
     fi)

/-- Current-stage handling step: honour a non-blank value, else substitute the
`Yet to Assign` sentinel with an error and a fix note. -/
def normStage (raw : RawLead) (log : ValidationLog)
    (fi : FieldIssues) : String × ValidationLog × FieldIssues :=
  if nonBlank raw.currentStage then (jsTrim (raw.currentStage.getD ""), log, fi)
  else
    ("Yet to Assign",
     pushFix (pushErr log "Missing required current stage")
       "Set default stage for missing current stage",
     fi)

/-- Lead-created-date handling step with resilient parsing. -/
def normDate (env : Env) (raw : RawLead) (log : ValidationLog)
    (fi : FieldIssues) : Nat × ValidationLog × FieldIssues :=
  match raw.leadCreatedDate with
  | some s =>
    if s = "" then
      (env.nowMs, pushFix log "Missing date - defaulted to current date", fi)
    else
      match parseLeadDate env s with
      | some t => (t, log, fi)
      | none =>
        (env.nowMs,
         pushWarn (pushFix log "Invalid date format - defaulted to current date")
           ("Original date \"" ++ s ++ "\" could not be parsed"),
         addFieldIssue fi "leadCreatedDate" ("Invalid format: " ++ s))
  | none =>
    (env.nowMs, pushFix log "Missing date - defaulted to current date", fi)

/-- Intake field step: normalize when present, else null plus a warning. -/
def normIntakeField (env : Env) (raw : RawLead) (log : ValidationLog)
    (fi : FieldIssues) : Option String × ValidationLog × FieldIssues :=
  if nonBlank raw.intake then
    let r := normalizeIntake env (jsTrim (raw.intake.getD "")) log fi
    (some r.1, r.2.1, r.2.2)
  else (none, pushWarn log "Missing intake information", fi)

/-- Country field step: normalize when present, else null plus a warning. -/
def normCountryField (raw : RawLead) (log : ValidationLog)
    (fi : FieldIssues) : Option String × ValidationLog × FieldIssues :=
  if nonBlank raw.country then
    let r := normalizeCountry (jsTrim (raw.country.getD "")) log fi
    (some r.1, r.2.1, r.2.2)
  else (none, pushWarn log "Missing country information", fi)

/-- Phone field step: `mobileNumber` preferred over `phone`, else null plus a
warning. -/
def normPhoneField (raw : RawLead) (log : ValidationLog)
    (fi : FieldIssues) : Option String × ValidationLog × FieldIssues :=
  if nonBlank raw.mobileNumber then
    let r := normalizePhone (jsTrim (raw.mobileNumber.getD "")) log fi
    (some r.1, r.2.1, r.2.2)
  else if nonBlank raw.phone then
    let r := normalizePhone (jsTrim (raw.phone.getD "")) log fi
    (some r.1, r.2.1, r.2.2)
  else (none, pushWarn log "Missing phone number", fi)

/-- Email field step: normalize when present, else null with no log entry. -/
def normEmailField (raw : RawLead) (log : ValidationLog)
    (fi : FieldIssues) : Option String × ValidationLog × FieldIssues :=
  if nonBlank raw.email then normalizeEmail (jsTrim (raw.email.getD "")) log fi
  else (none, log, fi)

/-- Models `normalizeAndValidateLead`: apply every field step in source order,
threading the row log and the batch-wide field-issue tally. -/
def normalizeAndValidateLead (env : Env) (raw : RawLead) (log : ValidationLog)
    (fi : FieldIssues) : NormalizedLead × ValidationLog × FieldIssues :=
  let u := normUid env raw log fi
  let n := normName raw u.2.1 u.2.2
  let st := normStage raw n.2.1 n.2.2
  let dt := normDate env raw st.2.1 st.2.2
  let it := normIntakeField env raw dt.2.1 dt.2.2
  let co := normCountryField raw it.2.1 it.2.2
  let ph := normPhoneField raw co.2.1 co.2.2
  let em := normEmailField raw ph.2.1 ph.2.2
  ({ uid := u.1, name := n.1, currentStage := st.1, leadCreatedDate := dt.1,
     intake := it.1, country := co.1, phone := ph.1, email := em.1,
     source := optTrim raw.source, passportStatus := optTrim raw.passportStatus,
     remarks := optTrim raw.remarks, counsellors := optTrim raw.counsellors },
   em.2.1, em.2.2)

/-- Truthiness of a nullable numeric id (JS: `0` and `null` are falsy). -/
def optTruthyNat (o : Option Nat) : Bool :=
  match o with
  | some n => decide (n ≠ 0)
  | none => false

/-- Models `determineOptimalStage`: honour a non-blank requested stage
verbatim; otherwise both the unassigned and the assigned branch return the
`Yet to Contact` sentinel. -/
def determineOptimalStage (counselorId : Option Nat)
    (requestedStage : Option String) : String :=
  if nonBlank requestedStage then jsTrim (requestedStage.getD "")
  else if !optTruthyNat counselorId then "Yet to Contact"
  else "Yet to Contact"

/-- A user of the roster. -/
structure User where
  id : Nat
  name : String
  role : String
  deriving DecidableEq, Repr

/-- The roster snapshot taken once per run. -/
structure Roster where
  managerId : Option Nat
  counselors : List User
  defaultCounselor : Option User
  deriving DecidableEq, Repr

/-- Roster construction from the user list: the manager is the first user
whose name contains `anupriya` or whose role is `admin` (a zero id is falsy
under `manager?.id || null`), the counselors are the counselor-role users, and
the default counselor is the first one whose name contains `likitha`. -/
def mkRoster (users : List User) : Roster :=
  let manager := List.find? (fun u =>
    hasSub "anupriya".data (jsLower u.name).data || decide (u.role = "admin")) users
  let managerId : Option Nat :=
    match manager with
    | some u => if u.id = 0 then none else some u.id
    | none => none
  let cs := List.filter (fun u => decide (u.role = "counselor")) users
  { managerId := managerId, counselors := cs,
    defaultCounselor :=
      List.find? (fun c => hasSub "likitha".data (jsLower c.name).data) cs }

/-- Models `applyBusinessLogic`: bidirectional-substring counselor matching
with a fallback default, then stage derivation.  (The `managerId` parameter is
accepted and unused, as in the source.) -/
def applyBusinessLogic (normalized : NormalizedLead) (counselors : List User)
    (defaultCounselor : Option User) (managerId : Option Nat) : BizResult :=
  let assigned : Option Nat :=
    if nonBlank normalized.counsellors then
      let counselorName := jsLower (jsTrim (normalized.counsellors.getD ""))
      match List.find? (fun c =>
          hasSub counselorName.data (jsLower c.name).data ||
          hasSub (jsLower c.name).data counselorName.data) counselors with
      | some matched => some matched.id
      | none =>
        match defaultCounselor with
        | some dc => some dc.id
        | none => none
    else none
  { counselorId := assigned,
    currentStage := determineOptimalStage assigned (some normalized.currentStage) }

/-- A thrown JS value: `nullish` for a thrown `null`/`undefined` (reading
`.message` on it throws a `TypeError`), `exn msg` for anything else, with
`msg = none` when the value has no string `message` property. -/
inductive JSErr where
  | nullish
  | exn (message : Option String)
  deriving DecidableEq, Repr

/-- Evaluation of `error.message || 'Unknown error during processing'` inside
the row-level catch handler.  On a nullish thrown value the property read
itself throws a `TypeError`, which escapes to the chunk-level catch. -/
def getMessage : JSErr → Except JSErr String
  | .nullish =>
    .error (.exn (some "TypeError: cannot read properties of null"))
  | .exn none => .ok "Unknown error during processing"
  | .exn (some m) =>
    .ok (if m = "" then "Unknown error during processing" else m)

/-- JS string coercion of a thrown value, used by the chunk-failure message
template. -/
def errString : JSErr → String
  | .nullish => "null"
  | .exn none => "[object Object]"
  | .exn (some m) => m

/-- The lead entity returned by the store. -/
structure Lead where
  id : Nat
  deriving DecidableEq, Repr

/-- Fields of the `storage.createLead` call made by the bulk importer. -/
structure LeadPayload where
  uid : String
  name : String
  email : Option String
  phone : Option String
  country : Option String
  course : Option String
  intake : Option String
  source : Option String
  currentStage : String
  counselorId : Option Nat
  managerId : Option Nat
  prevConsultancy : Option String
  passportStatus : Option String
  remarks : Option String
  counsellors : Option String
  deriving DecidableEq, Repr

/-- Fields of the `storage.createRemark` call. -/
structure RemarkPayload where
  leadId : Nat
  userId : Nat
  content : String
  isVisible : Bool
  deriving DecidableEq, Repr

/-- Fields of the `storage.createStageHistory` call. -/
structure HistoryPayload where
  leadId : Nat
  fromStage : Option String
  toStage : String
  userId : Nat
  reason : String
  createdAt : Nat
  deriving DecidableEq, Repr

/-- The persistence-store collaborator: stateful, fallible operations. -/
structure StoreOps (σ : Type) where
  getAllUsers : σ → Except JSErr (List User) × σ
  createLead : σ → LeadPayload → Except JSErr Lead × σ
  createRemark : σ → RemarkPayload → Except JSErr Unit × σ
  createStageHistory : σ → HistoryPayload → Except JSErr Unit × σ

/-- `businessLogicResult.counselorId || managerId || 1` (JS `||`, under which
`0` and `null` are falsy). -/
def userFallback (counselorId managerId : Option Nat) : Nat :=
  match counselorId with
  | some n => if n = 0 then (match managerId with
      | some j => if j = 0 then 1 else j
      | none => 1) else n
  | none =>
    match managerId with
    | some j => if j = 0 then 1 else j
    | none => 1

/-- The `createLead` payload built from one normalized row. -/
def mkLeadPayload (normalized : NormalizedLead) (blr : BizResult)
    (managerId : Option Nat) : LeadPayload :=
  { uid := normalized.uid, name := normalized.name, email := normalized.email,
    phone := normalized.phone, country := normalized.country, course := none,
    intake := normalized.intake, source := normalized.source,
    currentStage := blr.currentStage, counselorId := blr.counselorId,
    managerId := managerId, prevConsultancy := none,
    passportStatus := normalized.passportStatus, remarks := none,
    counsellors := normalized.counsellors }

/-- The `createRemark` payload built from one normalized row. -/
def mkRemarkPayload (normalized : NormalizedLead) (blr : BizResult)
    (managerId : Option Nat) (leadId : Nat) : RemarkPayload :=
  { leadId := leadId,
    userId := userFallback blr.counselorId managerId,
    content := "Bulk Import: " ++ jsTrim (normalized.remarks.getD ""),
    isVisible := true }

/-- The `createStageHistory` payload built from one normalized row. -/
def mkHistoryPayload (normalized : NormalizedLead) (blr : BizResult)
    (managerId : Option Nat) (leadId : Nat) : HistoryPayload :=
  { leadId := leadId, fromStage := none, toStage := blr.currentStage,
    userId := userFallback blr.counselorId managerId,
    reason := "Bulk import - " ++
      (if optTruthyNat blr.counselorId then "Assigned to counselor"
       else "Unassigned"),
    createdAt := normalized.leadCreatedDate }

/-- The pure prefix of one row's try block: normalize the row, apply the
business rules, and set the log's `normalizedData`. -/
def rowNorm (env : Env) (ros : Roster) (rowNumber : Nat) (raw : RawLead)
    (fi : FieldIssues) : NormalizedLead × BizResult × ValidationLog × FieldIssues :=
  let n := normalizeAndValidateLead env raw (initLog rowNumber raw) fi
  let blr := applyBusinessLogic n.1 ros.counselors ros.defaultCounselor
    ros.managerId
  (n.1, blr,
   { n.2.1 with normalizedData := some ⟨n.1, blr.counselorId, blr.currentStage⟩ },
   n.2.2)

/-- The try-block body of one row: normalize, apply business rules, record
`normalizedData`, then (non-dry-run) persist the lead plus the optional
remark and stage-history records.  The returned log is the row log as mutated
up to the point of an exception; the tally and store state are threaded
through side effects that happened before the throw. -/
def rowTry {σ : Type} (env : Env) (store : StoreOps σ) (dryRun : Bool)
    (ros : Roster) (rowNumber : Nat) (raw : RawLead) (fi : FieldIssues)
    (s : σ) : Except JSErr Unit × ValidationLog × FieldIssues × σ :=
  let rn := rowNorm env ros rowNumber raw fi
  let normalized := rn.1
  let blr := rn.2.1
  let log2 := rn.2.2.1
  let fi1 := rn.2.2.2
  if dryRun then (.ok (), log2, fi1, s)
  else
    match store.createLead s (mkLeadPayload normalized blr ros.managerId) with
    | (.error e, s1) => (.error e, log2, fi1, s1)
    | (.ok newLead, s1) =>
      let remarkStep : Except JSErr Unit × σ :=
        if nonBlank normalized.remarks then
          store.createRemark s1
            (mkRemarkPayload normalized blr ros.managerId newLead.id)
        else (.ok (), s1)
      match remarkStep with
      | (.error e, s2) => (.error e, log2, fi1, s2)
      | (.ok _, s2) =>
        let histStep : Except JSErr Unit × σ :=
          if nonBlankStr blr.currentStage ∧ blr.currentStage ≠ "Yet to Assign" then
            store.createStageHistory s2
              (mkHistoryPayload normalized blr ros.managerId newLead.id)
          else (.ok (), s2)
        match histStep with
        | (.error e, s3) => (.error e, log2, fi1, s3)
        | (.ok _, s3) => (.ok (), log2, fi1, s3)

/-- Outcome classification of a row that completed its try block: degrade to
`ImportedWithIssues` when any warning or fix was recorded. -/
def classify (log : ValidationLog) : ValidationLog :=
  if log.warnings ≠ [] ∨ log.fixesApplied ≠ [] then
    {log with status := .importedWithIssues}
  else log

/-- One row of the chunk loop: run the try block; on an exception run the
row-level catch handler, whose own `.message` read may throw and escape. -/
def processRow {σ : Type} (env : Env) (store : StoreOps σ) (dryRun : Bool)
    (ros : Roster) (rowNumber : Nat) (raw : RawLead) (fi : FieldIssues)
    (s : σ) : Except JSErr ValidationLog × FieldIssues × σ :=
  match rowTry env store dryRun ros rowNumber raw fi s with
  | (.ok _, log, fi1, s1) => (.ok (classify log), fi1, s1)
  | (.error e, log, fi1, s1) =>
    match getMessage e with
    | .ok m =>
      (.ok {log with status := .failed, errors := log.errors ++ [m]}, fi1, s1)
    | .error t => (.error t, fi1, s1)

/-- Batch counters (`importedCount`, `importedWithIssuesCount`,
`failedCount`). -/
structure Counters where
  imported : Nat
  iwi : Nat
  failed : Nat
  deriving DecidableEq, Repr

/-- The zero counters. -/
def zeroC : Counters := ⟨0, 0, 0⟩

/-- Increment the counter selected by a row status. -/
def bump (c : Counters) : RowStatus → Counters
  | .imported => {c with imported := c.imported + 1}
  | .importedWithIssues => {c with iwi := c.iwi + 1}
  | .failed => {c with failed := c.failed + 1}

/-- Result of running the rows of one chunk up to completion or escape. -/
structure RowsOut (σ : Type) where
  logs : List ValidationLog
  cnt : Counters
  fi : FieldIssues
  st : σ
  escape : Option JSErr

/-- The inner row loop of one chunk: process rows in order, pushing each
completed row's log and bumping its counter; an escaping exception stops the
loop and is reported to the chunk-level catch. -/
def runRows {σ : Type} (env : Env) (store : StoreOps σ) (dryRun : Bool)
    (ros : Roster) : List RawLead → Nat → FieldIssues → σ → RowsOut σ
  | [], _, fi, s => ⟨[], zeroC, fi, s, none⟩
  | raw :: rest, rowNumber, fi, s =>
    match processRow env store dryRun ros rowNumber raw fi s with
    | (.error t, fi1, s1) => ⟨[], zeroC, fi1, s1, some t⟩
    | (.ok log, fi1, s1) =>
      let r := runRows env store dryRun ros rest (rowNumber + 1) fi1 s1
      ⟨log :: r.logs, bump r.cnt log.status, r.fi, r.st, r.escape⟩

/-- The synthetic Failed entry pushed for every row of a chunk whose
chunk-level catch fired. -/
def chunkFailEntry (rowNumber : Nat) (raw : RawLead) (t : JSErr) : ValidationLog :=
  { rowNumber := rowNumber, status := .failed, fixesApplied := [],
    warnings := [], errors := ["Chunk processing failed: " ++ errString t],
    originalData := raw, normalizedData := none }

/-- Result of one chunk: its log entries, counter deltas, whether the chunk
counted as successful, and the threaded tally / store state. -/
structure ChunkOut (σ : Type) where
  logs : List ValidationLog
  cnt : Counters
  ok : Bool
  fi : FieldIssues
  st : σ

/-- One chunk: run the rows; when an exception escapes the row handler, the
defensive catch marks every row of the chunk Failed (also the rows already
classified and pushed) and counts the chunk as failed. -/
def processChunk {σ : Type} (env : Env) (store : StoreOps σ) (dryRun : Bool)
    (ros : Roster) (chunkStartIndex : Nat) (chunk : List RawLead)
    (fi : FieldIssues) (s : σ) : ChunkOut σ :=
  let r := runRows env store dryRun ros chunk (chunkStartIndex + 1) fi s
  match r.escape with
  | none => ⟨r.logs, r.cnt, true, r.fi, r.st⟩
  | some t =>
    let failLogs := (List.range chunk.length).zip chunk |>.map
      (fun p => chunkFailEntry (chunkStartIndex + p.1 + 1) p.2 t)
    ⟨r.logs ++ failLogs, {r.cnt with failed := r.cnt.failed + chunk.length},
     false, r.fi, r.st⟩

/-- Result of the chunk loop. -/
structure ChunksOut (σ : Type) where
  logs : List ValidationLog
  cnt : Counters
  succChunks : Nat
  failChunks : Nat
  fi : FieldIssues
  st : σ

/-- The outer chunk loop (`chunkStartIndex = chunkIndex * chunkSize`). -/
def runChunks {σ : Type} (env : Env) (store : StoreOps σ) (dryRun : Bool)
    (ros : Roster) (chunkSize : Nat) :
    List (List RawLead) → Nat → FieldIssues → σ → ChunksOut σ
  | [], _, fi, s => ⟨[], zeroC, 0, 0, fi, s⟩
  | chunk :: rest, chunkIndex, fi, s =>
    let c := processChunk env store dryRun ros (chunkIndex * chunkSize) chunk fi s
    let r := runChunks env store dryRun ros chunkSize rest (chunkIndex + 1) c.fi c.st
    ⟨c.logs ++ r.logs,
     ⟨c.cnt.imported + r.cnt.imported, c.cnt.iwi + r.cnt.iwi,
      c.cnt.failed + r.cnt.failed⟩,
     (if c.ok then 1 else 0) + r.succChunks,
     (if c.ok then 0 else 1) + r.failChunks, r.fi, r.st⟩

/-- Fuel-indexed chunk splitter equivalent (for positive sizes) to the
source's `for (let i = 0; i < rawLeads.length; i += chunkSize)` loop. -/
def chunksGo (n : Nat) : Nat → List RawLead → List (List RawLead)
  | 0, _ => []
  | _, [] => []
  | fuel + 1, l => l.take n :: chunksGo n fuel (l.drop n)

/-- Chunk decomposition used by the pipeline model. -/
def chunksOf (n : Nat) (l : List RawLead) : List (List RawLead) :=
  chunksGo n l.length l

/-- Chunk statistics of the batch summary. -/
structure ChunkStats where
  totalChunks : Nat
  successfulChunks : Nat
  failedChunks : Nat
  deriving DecidableEq, Repr

/-- The batch summary. -/
structure BatchSummary where
  totalRows : Nat
  imported : Nat
  importedWithIssues : Nat
  failed : Nat
  processingTimeMs : Nat
  chunkStats : ChunkStats
  fieldIssues : FieldIssues
  deriving DecidableEq, Repr

/-- The structure returned by the pipeline. -/
structure BulkResult where
  success : Bool
  batchSummary : BatchSummary
  validationLog : List ValidationLog
  deriving DecidableEq, Repr

/-- Models `processBulkLeadImport`: snapshot the roster (swallowing a lookup
failure), split the input into chunks, run the chunk loop, and assemble the
unconditionally-successful result. -/
def processBulkLeadImport {σ : Type} (env : Env) (store : StoreOps σ) (s0 : σ)
    (rawLeads : List RawLead) (dryRun : Bool) (chunkSize : Nat) :
    BulkResult × σ :=
  let setup := store.getAllUsers s0
  let ros : Roster :=
    match setup.1 with
    | .error _ => ⟨none, [], none⟩
    | .ok users => mkRoster users
  let chunks := chunksOf chunkSize rawLeads
  let r := runChunks env store dryRun ros chunkSize chunks 0 [] setup.2
  ({ success := true,
     batchSummary :=
       { totalRows := rawLeads.length, imported := r.cnt.imported,
         importedWithIssues := r.cnt.iwi, failed := r.cnt.failed,
         processingTimeMs := env.endMs - env.nowMs,
         chunkStats := ⟨chunks.length, r.succChunks, r.failChunks⟩,
         fieldIssues := r.fi },
     validationLog := r.logs }, r.st)

/-- The literal `for (let i = 0; i < rawLeads.length; i += chunkSize)` header
as a fuel-indexed loop over the (integer) index, recording each chunk's start
index; `none` means the fuel ran out before the loop condition turned false. -/
def jsChunkLoop (rawLen : Int) (chunkSize : Int) : Int → Nat → Option (List Int)
  | _, 0 => none
  | i, fuel + 1 =>
    if i < rawLen then (jsChunkLoop rawLen chunkSize (i + chunkSize) fuel).map (i :: ·)
    else some []

/-- Models the chunk-size extraction of the HTTP entry point
`POST /api/imports/leads/bulk`: `const { chunkSize = 1000 } = req.body` — any
provided value, sane or not, is passed through to the pipeline unvalidated. -/
def routeChunkSize (provided : Option Int) : Int := provided.getD 1000

/-! Concrete fixtures used by the witness theorems. -/

/-- A concrete environment: clock at epoch, current year 2024, a `Date`
parser that accepts nothing. -/
def envW : Env := ⟨0, 0, 2024, fun _ => none⟩

/-- A small concrete input row. -/
def rawW : RawLead :=
  { uid := some "u1", studentName := some "Ann", currentStage := some "New" }

/-- A concrete row with no explicit current stage. -/
def rawC5 : RawLead := { studentName := some "Alice" }

/-- A store whose operations always succeed; the state counts `createLead`
calls and numbers the created leads. -/
def okStoreW : StoreOps Nat :=
  { getAllUsers := fun s => (.ok [⟨7, "Likitha", "counselor"⟩], s),
    createLead := fun s _ => (.ok ⟨s⟩, s + 1),
    createRemark := fun s _ => (.ok (), s),
    createStageHistory := fun s _ => (.ok (), s) }

/-- A store whose `createLead` rejects with a message-bearing error exactly on
its `k`-th call (counting from zero) and succeeds otherwise. -/
def failMsgStore (m : String) (k : Nat) : StoreOps Nat :=
  { getAllUsers := fun s => (.ok [], s),
    createLead := fun s _ =>
      (if s = k then .error (.exn (some m)) else .ok ⟨s⟩, s + 1),
    createRemark := fun s _ => (.ok (), s),
    createStageHistory := fun s _ => (.ok (), s) }

/-- A store whose `createLead` rejects with a thrown `null` exactly on its
second call (state 1) and succeeds otherwise. -/
def nullStoreW : StoreOps Nat :=
  { getAllUsers := fun s => (.ok [], s),
    createLead := fun s _ => (if s = 1 then .error .nullish else .ok ⟨s⟩, s + 1),
    createRemark := fun s _ => (.ok (), s),
    createStageHistory := fun s _ => (.ok (), s) }

/-- Row-processing run used by the C2 witness: the store rejects the very
first insert with the message `boom`. -/
def c2res : Except JSErr ValidationLog × FieldIssues × Nat :=
  processRow envW (failMsgStore "boom" 0) false ⟨none, [], none⟩ 1 rawW [] 0

/-- The log entry produced by `c2res` (its processing completed through the
row-level catch handler). -/
def c2log : ValidationLog :=
  match c2res.1 with
  | .ok l => l
  | .error _ => initLog 0 {}

/-- Predicate for C1/C2/C4: a store that never throws a nullish value, so the
row-level catch handler itself can never throw. -/
def tameStore {σ : Type} (store : StoreOps σ) : Prop :=
  (∀ s p, (store.createLead s p).1 ≠ .error .nullish) ∧
  (∀ s p, (store.createRemark s p).1 ≠ .error .nullish) ∧
  (∀ s p, (store.createStageHistory s p).1 ≠ .error .nullish)

/-- Reference semantics of the dry run of one chunk's rows: the logs,
counters and tally the row loop produces when persistence is skipped. -/
def dryRows (env : Env) (ros : Roster) :
    List RawLead → Nat → FieldIssues →
      List ValidationLog × Counters × FieldIssues
  | [], _, fi => ([], zeroC, fi)
  | raw :: rest, n, fi =>
    let lg := classify (rowNorm env ros n raw fi).2.2.1
    let r := dryRows env ros rest (n + 1) (rowNorm env ros n raw fi).2.2.2
    (lg :: r.1, bump r.2.1 lg.status, r.2.2)

/-- Reference semantics of the dry run of the chunk loop. -/
def dryChunksAcc (env : Env) (ros : Roster) (csize : Nat) :
    List (List RawLead) → Nat → FieldIssues →
      List ValidationLog × Counters × FieldIssues
  | [], _, fi => ([], zeroC, fi)
  | chunk :: rest, idx, fi =>
    let d := dryRows env ros chunk (idx * csize + 1) fi
    let r := dryChunksAcc env ros csize rest (idx + 1) d.2.2
    (d.1 ++ r.1,
     ⟨d.2.1.imported + r.2.1.imported, d.2.1.iwi + r.2.1.iwi,
      d.2.1.failed + r.2.1.failed⟩, r.2.2)

/-- Predicate for C7: every create operation of the store succeeds. -/
def createOk {σ : Type} (store : StoreOps σ) : Prop :=
  (∀ s p, ∃ v s', store.createLead s p = (.ok v, s')) ∧
  (∀ s p, ∃ s', store.createRemark s p = (.ok (), s')) ∧
  (∀ s p, ∃ s', store.createStageHistory s p = (.ok (), s'))

end GCRM

namespace GCRM

/-! Shared lemmas. -/

theorem dropWhile_self_eq {p : Char → Bool} (l : List Char) :
    List.dropWhile p (List.dropWhile p l) = List.dropWhile p l := by
  induction l with
  | nil => rfl
  | cons a t ih =>
    by_cases h : p a
    · simp [List.dropWhile_cons, h, ih]
    · simp [List.dropWhile_cons, h]

theorem dropWhile_head_false {p : Char → Bool} :
    ∀ {l : List Char} {a : Char} {t : List Char},
      List.dropWhile p l = a :: t → p a = false := by
  intro l
  induction l with
  | nil => intro a t h; simp at h
  | cons b u ih =>
    intro a t h
    by_cases hb : p b
    · rw [List.dropWhile_cons, if_pos hb] at h
      exact ih h
    · rw [List.dropWhile_cons, if_neg hb] at h
      cases h
      simpa using hb

theorem dropWhile_prefix_part {p : Char → Bool} {x y z : List Char}
    (hsplit : y ++ z = x) (hx : List.dropWhile p x = x) :
    List.dropWhile p y = y := by
  cases y with
  | nil => rfl
  | cons a t =>
    have hxa : x = a :: (t ++ z) := by rw [← hsplit]; rfl
    have hpa : p a = false := by
      rw [hxa] at hx
      exact dropWhile_head_false hx
    rw [List.dropWhile_cons, if_neg (by simp [hpa])]

theorem dropWhile_of_dropWhile_rev {p : Char → Bool} (x : List Char)
    (hx : List.dropWhile p x = x) :
    List.dropWhile p (List.reverse (List.dropWhile p (List.reverse x))) =
      List.reverse (List.dropWhile p (List.reverse x)) := by
  apply dropWhile_prefix_part
    (z := List.reverse (List.takeWhile p (List.reverse x)))
  · rw [← List.reverse_append, List.takeWhile_append_dropWhile,
      List.reverse_reverse]
  · exact hx

theorem jsTrim_idem (s : String) : jsTrim (jsTrim s) = jsTrim s := by
  cases s with
  | mk l =>
    unfold jsTrim
    simp only []
    congr 1
    have h1 : List.dropWhile jsWS
        (((List.dropWhile jsWS l).reverse.dropWhile jsWS).reverse) =
        ((List.dropWhile jsWS l).reverse.dropWhile jsWS).reverse :=
      dropWhile_of_dropWhile_rev (List.dropWhile jsWS l) (dropWhile_self_eq l)
    rw [h1]
    rw [List.reverse_reverse, dropWhile_self_eq]

theorem nonBlankStr_jsTrim (s : String) :
    nonBlankStr (jsTrim s) = nonBlankStr s := by
  unfold nonBlankStr
  rw [jsTrim_idem]

theorem append_singleton_ne {α : Type} (l : List α) (a : α) : l ++ [a] ≠ l := by
  intro hEq
  have := congrArg List.length hEq
  simp at this

/-- Value computed by the current-stage step, independent of the threaded log
and tally. -/
theorem normStage_val (raw : RawLead) (log : ValidationLog) (fi : FieldIssues) :
    (normStage raw log fi).1 =
      if nonBlank raw.currentStage then jsTrim (raw.currentStage.getD "")
      else "Yet to Assign" := by
  unfold normStage
  split <;> rfl

theorem normalizeAndValidateLead_currentStage (env : Env) (raw : RawLead)
    (log : ValidationLog) (fi : FieldIssues) :
    (normalizeAndValidateLead env raw log fi).1.currentStage =
      if nonBlank raw.currentStage then jsTrim (raw.currentStage.getD "")
      else "Yet to Assign" := by
  simp only [normalizeAndValidateLead]
  exact normStage_val raw _ _

theorem applyBusinessLogic_stage (n : NormalizedLead) (cs : List User)
    (dc : Option User) (mid : Option Nat) :
    ∃ cid, applyBusinessLogic n cs dc mid =
      ⟨cid, determineOptimalStage cid (some n.currentStage)⟩ :=
  ⟨_, rfl⟩

theorem determineOptimalStage_of_nonBlank (cid : Option Nat) (s : String)
    (hs : nonBlankStr s = true) :
    determineOptimalStage cid (some (jsTrim s)) = jsTrim s := by
  unfold determineOptimalStage
  rw [if_pos]
  · simp [Option.getD, jsTrim_idem]
  · show nonBlankStr (jsTrim s) = true
    rw [nonBlankStr_jsTrim]
    exact hs

theorem determineOptimalStage_yta (cid : Option Nat) :
    determineOptimalStage cid (some "Yet to Assign") = "Yet to Assign" := by
  unfold determineOptimalStage
  rw [if_pos (by decide)]
  decide

/-! Claim theorems. -/

/-- C3: for every array-shaped input and chunk size at least one, the pipeline
model is a total function whose result always carries `success = true` — all
failure signal, including total store failure and roster-lookup failure, is
represented inside `batchSummary`/`validationLog` only. -/
theorem c3_success_always_true {σ : Type} (env : Env) (store : StoreOps σ)
    (s0 : σ) (rawLeads : List RawLead) (dryRun : Bool) (chunkSize : Nat)
    (h : 1 ≤ chunkSize) :
    (processBulkLeadImport env store s0 rawLeads dryRun chunkSize).1.success
      = true := rfl

/-- Witness for C3 at a concrete input. -/
theorem c3_success_witness :
    (processBulkLeadImport envW okStoreW 0 [rawW] false 1).1.success = true :=
  c3_success_always_true envW okStoreW 0 [rawW] false 1 (by decide)

/-- C5 counterexample: a concrete row with no explicit current stage is
assigned the stage `Yet to Assign` by the pipeline (normalization followed by
business rules), not the `Yet to Contact` sentinel the claim requires. -/
theorem c5_stage_counterexample :
    (applyBusinessLogic
      (normalizeAndValidateLead envW rawC5 (initLog 1 rawC5) []).1
      [] none none).currentStage = "Yet to Assign" ∧
    "Yet to Assign" ≠ "Yet to Contact" := by
  constructor
  · decide
  · decide

/-- C5 amended: when a row has no non-blank explicit stage, the normalizer
substitutes the `Yet to Assign` sentinel and the business rules then honour
that non-blank value verbatim, so the pipeline assigns `Yet to Assign` —
independently of counselor assignment; when the row has a non-blank explicit
stage it is used verbatim (trimmed).  The fixed `Yet to Contact` sentinel is
produced by `determineOptimalStage` only when its stage argument itself is
absent or blank, again independently of the counselor. -/
theorem c5_stage_amended (env : Env) (raw : RawLead) (log : ValidationLog)
    (fi : FieldIssues) (counselors : List User) (defC : Option User)
    (mid : Option Nat) :
    (nonBlank raw.currentStage = false →
      (applyBusinessLogic (normalizeAndValidateLead env raw log fi).1
        counselors defC mid).currentStage = "Yet to Assign") ∧
    (nonBlank raw.currentStage = true →
      (applyBusinessLogic (normalizeAndValidateLead env raw log fi).1
        counselors defC mid).currentStage = jsTrim (raw.currentStage.getD "")) ∧
    (∀ cid, determineOptimalStage cid none = "Yet to Contact") ∧
    (∀ cid st, nonBlank st = false →
      determineOptimalStage cid st = "Yet to Contact") := by
  obtain ⟨cid, habl⟩ := applyBusinessLogic_stage
    (normalizeAndValidateLead env raw log fi).1 counselors defC mid
  refine ⟨?_, ?_, ?_, ?_⟩
  · intro hblank
    rw [habl]
    show determineOptimalStage cid
      (some (normalizeAndValidateLead env raw log fi).1.currentStage) =
      "Yet to Assign"
    rw [normalizeAndValidateLead_currentStage, if_neg (by simp [hblank])]
    exact determineOptimalStage_yta cid
  · intro hnb
    rw [habl]
    show determineOptimalStage cid
      (some (normalizeAndValidateLead env raw log fi).1.currentStage) =
      jsTrim (raw.currentStage.getD "")
    rw [normalizeAndValidateLead_currentStage, if_pos (by simp [hnb])]
    apply determineOptimalStage_of_nonBlank
    cases hc : raw.currentStage with
    | none => rw [hc] at hnb; simp [nonBlank] at hnb
    | some v =>
      rw [hc] at hnb
      simpa [nonBlank] using hnb
  · intro cid2
    unfold determineOptimalStage
    rw [if_neg (by decide)]
    split <;> rfl
  · intro cid2 st hst
    unfold determineOptimalStage
    rw [if_neg (by simp [hst])]
    split <;> rfl

/-- Witness for C5's amended statement at concrete inputs. -/
theorem c5_stage_witness :
    (applyBusinessLogic
      (normalizeAndValidateLead envW rawW (initLog 1 rawW) []).1
      [] none none).currentStage = jsTrim ((rawW.currentStage).getD "") :=
  (c5_stage_amended envW rawW (initLog 1 rawW) [] [] none none).2.1 (by decide)

/-- C6 counterexample: the phone normalizer keeps every `+`, wherever it
occurs — on input `1+2` the result `1+2` contains a non-leading `+`, so the
output is not restricted to digits plus at most a leading `+`. -/
theorem c6_phone_counterexample :
    (normalizePhone "1+2" (initLog 1 {}) []).1 = "1+2" ∧
    ¬ (∀ c ∈ ((normalizePhone "1+2" (initLog 1 {}) []).1.data.drop 1),
        isDig c = true) := by
  constructor
  · rfl
  · decide

theorem normalizePhone_val (phone : String) (log : ValidationLog)
    (fi : FieldIssues) :
    (normalizePhone phone log fi).1 =
      strOf (phone.data.filter (fun c => isDig c || decide (c = '+'))) := by
  unfold normalizePhone
  dsimp only
  split_ifs <;> rfl

theorem normalizePhone_errors (phone : String) (log : ValidationLog)
    (fi : FieldIssues) :
    (normalizePhone phone log fi).2.1.errors = log.errors := by
  unfold normalizePhone
  dsimp only
  split_ifs <;> rfl

theorem normalizePhone_warn_short (phone : String) (log : ValidationLog)
    (fi : FieldIssues)
    (hlt : ((strOf (phone.data.filter
      (fun c => isDig c || decide (c = '+')))).data.filter isDig).length < 10) :
    (normalizePhone phone log fi).2.1.warnings = log.warnings ++
      ["Phone number \"" ++ phone ++ "\" appears to be too short"] := by
  by_cases h1 : strOf (phone.data.filter (fun c => isDig c || decide (c = '+'))) = phone
  · rw [h1] at hlt
    simp [normalizePhone, h1, hlt, pushWarn, pushFix]
  · simp [normalizePhone, h1, hlt, pushWarn, pushFix]

theorem normalizePhone_warn_ok (phone : String) (log : ValidationLog)
    (fi : FieldIssues)
    (hge : ¬ ((strOf (phone.data.filter
      (fun c => isDig c || decide (c = '+')))).data.filter isDig).length < 10) :
    (normalizePhone phone log fi).2.1.warnings = log.warnings := by
  by_cases h1 : strOf (phone.data.filter (fun c => isDig c || decide (c = '+'))) = phone
  · rw [h1] at hge
    simp [normalizePhone, h1, hge, pushWarn, pushFix]
  · simp [normalizePhone, h1, hge, pushWarn, pushFix]

theorem normalizePhone_fix_iff (phone : String) (log : ValidationLog)
    (fi : FieldIssues) :
    ((normalizePhone phone log fi).2.1.fixesApplied ≠ log.fixesApplied ↔
      strOf (phone.data.filter (fun c => isDig c || decide (c = '+'))) ≠ phone) := by
  by_cases h1 : strOf (phone.data.filter (fun c => isDig c || decide (c = '+'))) = phone
  · by_cases h2 : ((strOf (phone.data.filter
        (fun c => isDig c || decide (c = '+')))).data.filter isDig).length < 10
    · rw [h1] at h2
      simp [normalizePhone, h1, h2, pushWarn, pushFix, append_singleton_ne]
    · rw [h1] at h2
      simp [normalizePhone, h1, h2, pushWarn, pushFix, append_singleton_ne]
  · by_cases h2 : ((strOf (phone.data.filter
        (fun c => isDig c || decide (c = '+')))).data.filter isDig).length < 10
    · simp [normalizePhone, h1, h2, pushWarn, pushFix, append_singleton_ne]
    · simp [normalizePhone, h1, h2, pushWarn, pushFix, append_singleton_ne]

/-- C6 amended: for every non-empty input, the phone normalizer returns the
input with every character other than digits and `+` removed (every `+` is
retained at its position, not only a leading one); when fewer than ten digits
remain a warning — never an error — is appended and the cleaned value is
still returned; a fix is logged exactly when cleaning changed the string. -/
theorem c6_phone_amended (phone : String) (h : phone ≠ "")
    (log : ValidationLog) (fi : FieldIssues) :
    (∀ c ∈ (normalizePhone phone log fi).1.data, isDig c = true ∨ c = '+') ∧
    (normalizePhone phone log fi).2.1.errors = log.errors ∧
    (((normalizePhone phone log fi).1.data.filter isDig).length < 10 →
      (normalizePhone phone log fi).2.1.warnings = log.warnings ++
        ["Phone number \"" ++ phone ++ "\" appears to be too short"]) ∧
    (10 ≤ ((normalizePhone phone log fi).1.data.filter isDig).length →
      (normalizePhone phone log fi).2.1.warnings = log.warnings) ∧
    ((normalizePhone phone log fi).2.1.fixesApplied ≠ log.fixesApplied ↔
      (normalizePhone phone log fi).1 ≠ phone) := by
  have hval := normalizePhone_val phone log fi
  refine ⟨?_, normalizePhone_errors phone log fi, ?_, ?_, ?_⟩
  · rw [hval]
    intro c hc
    have hmem := List.of_mem_filter hc
    rcases Bool.or_eq_true _ _ |>.mp hmem with h1 | h2
    · exact Or.inl h1
    · exact Or.inr (by simpa using h2)
  · intro hlt
    rw [hval] at hlt
    exact normalizePhone_warn_short phone log fi hlt
  · intro hge
    rw [hval] at hge
    exact normalizePhone_warn_ok phone log fi (by omega)
  · rw [hval]
    exact normalizePhone_fix_iff phone log fi

/-- Witness for C6's amended statement: the spec's own example
`+1 (555) 123-4567` is cleaned to `+15551234567` and, the cleaning having
changed the string, a fix is logged. -/
theorem c6_phone_witness :
    (normalizePhone "+1 (555) 123-4567" (initLog 1 {}) []).1 =
      "+15551234567" ∧
    (normalizePhone "+1 (555) 123-4567" (initLog 1 {}) []).2.1.fixesApplied ≠
      (initLog 1 ({} : RawLead)).fixesApplied :=
  ⟨by decide,
   ((c6_phone_amended "+1 (555) 123-4567" (by decide)
      (initLog 1 {}) []).2.2.2.2).mpr (by decide)⟩

/-- C9: the country normalizer returns the ISO code on an alias-table hit,
logging a fix exactly when the code differs from the original; on a miss it
returns the original unchanged with a warning and never an error.  The spec's
two examples `usa → US` (fix) and `Wakanda → Wakanda` (warning, no error) are
included. -/
theorem c9_country_normalization (country : String) (h : country ≠ "")
    (log : ValidationLog) (fi : FieldIssues) :
    (∀ code, lookupStr countryPairs (jsTrim (jsLower country)) = some code →
      (normalizeCountry country log fi).1 = code ∧
      (normalizeCountry country log fi).2.1.errors = log.errors ∧
      (normalizeCountry country log fi).2.1.warnings = log.warnings ∧
      ((normalizeCountry country log fi).2.1.fixesApplied ≠ log.fixesApplied ↔
        code ≠ country)) ∧
    (lookupStr countryPairs (jsTrim (jsLower country)) = none →
      (normalizeCountry country log fi).1 = country ∧
      (normalizeCountry country log fi).2.1.errors = log.errors ∧
      (normalizeCountry country log fi).2.1.fixesApplied = log.fixesApplied ∧
      (normalizeCountry country log fi).2.1.warnings = log.warnings ++
        ["Country \"" ++ country ++ "\" could not be normalized to ISO code"]) ∧
    (normalizeCountry "usa" log fi).1 = "US" ∧
    (normalizeCountry "usa" log fi).2.1.fixesApplied = log.fixesApplied ++
      ["Normalized country from \"usa\" to \"US\""] ∧
    (normalizeCountry "usa" log fi).2.1.errors = log.errors ∧
    (normalizeCountry "Wakanda" log fi).1 = "Wakanda" ∧
    (normalizeCountry "Wakanda" log fi).2.1.warnings = log.warnings ++
      ["Country \"Wakanda\" could not be normalized to ISO code"] ∧
    (normalizeCountry "Wakanda" log fi).2.1.errors = log.errors := by
  refine ⟨?_, ?_, rfl, rfl, rfl, rfl, rfl, rfl⟩
  · intro code hcode
    by_cases heq : code = country
    · simp [normalizeCountry, hcode, heq, pushFix, pushWarn]
    · simp [normalizeCountry, hcode, heq, pushFix, pushWarn,
        append_singleton_ne]
  · intro hnone
    simp [normalizeCountry, hnone, pushWarn]

/-- Witness for C9 at the spec's concrete example `usa`. -/
theorem c9_country_witness :
    (normalizeCountry "usa" (initLog 1 {}) []).1 = "US" :=
  ((c9_country_normalization "usa" (by decide) (initLog 1 {}) []).1 "US"
    (by decide)).1

/-! Chunk-splitting lemmas (C10 and C1). -/

theorem jsChunkLoop_stuck (rawLen csize : Int) (hc : csize ≤ 0)
    (hl : 0 < rawLen) :
    ∀ (fuel : Nat) (i : Int), i ≤ 0 → jsChunkLoop rawLen csize i fuel = none := by
  intro fuel
  induction fuel with
  | zero => intro i _; rfl
  | succ f ih =>
    intro i hi
    unfold jsChunkLoop
    rw [if_pos (by omega : i < rawLen), ih (i + csize) (by omega)]
    rfl

theorem jsChunkLoop_shift (csize : Int) :
    ∀ (fuel : Nat) (len i d : Int),
      jsChunkLoop (len + d) csize (i + d) fuel =
        (jsChunkLoop len csize i fuel).map (List.map (· + d)) := by
  intro fuel
  induction fuel with
  | zero => intro len i d; rfl
  | succ f ih =>
    intro len i d
    unfold jsChunkLoop
    by_cases h : i < len
    · rw [if_pos (by omega : i + d < len + d), if_pos h]
      have harg : i + d + csize = i + csize + d := by ring
      rw [harg, ih len (i + csize) d]
      cases jsChunkLoop len csize (i + csize) f <;> simp
    · rw [if_neg (by omega : ¬ i + d < len + d), if_neg h]
      rfl

theorem chunksGo_congr (n : Nat) (hn : 1 ≤ n) :
    ∀ (f1 f2 : Nat) (l : List RawLead), l.length ≤ f1 → l.length ≤ f2 →
      chunksGo n f1 l = chunksGo n f2 l := by
  intro f1
  induction f1 with
  | zero =>
    intro f2 l h1 _
    have hl : l = [] := List.eq_nil_of_length_eq_zero (by omega)
    subst hl
    cases f2 <;> rfl
  | succ f ih =>
    intro f2 l h1 h2
    cases l with
    | nil => cases f2 <;> rfl
    | cons a t =>
      cases f2 with
      | zero => simp at h2
      | succ f2' =>
        show (a :: t).take n :: chunksGo n f ((a :: t).drop n) =
          (a :: t).take n :: chunksGo n f2' ((a :: t).drop n)
        congr 1
        apply ih
        · rw [List.length_drop]
          simp only [List.length_cons] at h1 ⊢
          omega
        · rw [List.length_drop]
          simp only [List.length_cons] at h2 ⊢
          omega

theorem chunksOf_cons (n : Nat) (hn : 1 ≤ n) (l : List RawLead)
    (hne : l ≠ []) :
    chunksOf n l = l.take n :: chunksOf n (l.drop n) := by
  cases l with
  | nil => exact absurd rfl hne
  | cons a t =>
    show chunksGo n (a :: t).length (a :: t) = _
    simp only [List.length_cons]
    show (a :: t).take n :: chunksGo n t.length ((a :: t).drop n) = _
    congr 1
    apply chunksGo_congr n hn
    · rw [List.length_drop]
      simp only [List.length_cons]
      omega
    · exact Nat.le_refl _

theorem chunksOf_length (n : Nat) (hn : 1 ≤ n) :
    ∀ (k : Nat) (l : List RawLead), l.length ≤ k →
      (chunksOf n l).length = (l.length + n - 1) / n := by
  intro k
  induction k with
  | zero =>
    intro l hl
    have : l = [] := List.eq_nil_of_length_eq_zero (by omega)
    subst this
    show (0 : Nat) = (0 + n - 1) / n
    rw [Nat.div_eq_of_lt (by omega)]
  | succ k ih =>
    intro l hl
    cases hx : l with
    | nil =>
      show (0 : Nat) = (0 + n - 1) / n
      rw [Nat.div_eq_of_lt (by omega)]
    | cons a t =>
      subst hx
      simp only [List.length_cons] at hl
      rw [chunksOf_cons n hn _ (by simp)]
      simp only [List.length_cons]
      rw [ih (l := (a :: t).drop n) (by rw [List.length_drop]; simp only [List.length_cons]; omega)]
      rw [List.length_drop]
      simp only [List.length_cons]
      have hrw : t.length + 1 + n - 1 = (t.length + 1 - 1) + n := by omega
      rw [hrw, Nat.add_div_right _ (by omega)]
      by_cases hcase : n ≤ t.length + 1
      · have h1 : t.length + 1 - n + n - 1 = t.length + 1 - 1 := by omega
        rw [h1]
      · have h1 : t.length + 1 - n = 0 := by omega
        rw [h1]
        have h2 : (0 + n - 1) / n = 0 := Nat.div_eq_of_lt (by omega)
        have h3 : (t.length + 1 - 1) / n = 0 := Nat.div_eq_of_lt (by omega)
        rw [h2, h3]

theorem chunksOf_sum_length (n : Nat) (hn : 1 ≤ n) :
    ∀ (k : Nat) (l : List RawLead), l.length ≤ k →
      ((chunksOf n l).map List.length).sum = l.length := by
  intro k
  induction k with
  | zero =>
    intro l hl
    have : l = [] := List.eq_nil_of_length_eq_zero (by omega)
    subst this
    rfl
  | succ k ih =>
    intro l hl
    cases hx : l with
    | nil => rfl
    | cons a t =>
      subst hx
      simp only [List.length_cons] at hl
      rw [chunksOf_cons n hn _ (by simp)]
      simp only [List.map_cons, List.sum_cons]
      rw [ih (l := (a :: t).drop n) (by rw [List.length_drop]; simp only [List.length_cons]; omega)]
      rw [List.length_take, List.length_drop]
      simp only [List.length_cons]
      omega

theorem jsChunkLoop_chunksOf (n : Nat) (hn : 1 ≤ n) :
    ∀ (fuel : Nat) (l : List RawLead), l.length < fuel →
      ∃ bs, jsChunkLoop (l.length : Int) (n : Int) 0 fuel = some bs ∧
        (∀ i ∈ bs, 0 ≤ i) ∧
        bs.map (fun i => (l.drop i.toNat).take n) = chunksOf n l := by
  intro fuel
  induction fuel with
  | zero => intro l hl; omega
  | succ f ih =>
    intro l hl
    cases hx : l with
    | nil =>
      refine ⟨[], ?_, by simp, rfl⟩
      unfold jsChunkLoop
      rw [if_neg (by simp)]
    | cons a t =>
      subst hx
      have hlen : (0 : Int) < ((a :: t).length : Int) := by
        simp only [List.length_cons]
        omega
      by_cases hcase : n ≤ (a :: t).length
      · have hdroplen : ((a :: t).drop n).length = (a :: t).length - n :=
          List.length_drop n (a :: t)
        obtain ⟨bs', hsome', hpos', hmap'⟩ := ih ((a :: t).drop n)
          (by rw [hdroplen]; simp only [List.length_cons] at hl ⊢; omega)
        have hcast : (((a :: t).drop n).length : Int) =
            ((a :: t).length : Int) - (n : Int) := by
          rw [hdroplen]
          simp only [List.length_cons] at hcase ⊢
          omega
        refine ⟨0 :: bs'.map (· + (n : Int)), ?_, ?_, ?_⟩
        · unfold jsChunkLoop
          rw [if_pos hlen]
          have hshift := jsChunkLoop_shift (n : Int) f
            (((a :: t).length : Int) - (n : Int)) 0 (n : Int)
          have harg1 : ((a :: t).length : Int) - (n : Int) + (n : Int) =
              ((a :: t).length : Int) := by ring
          rw [harg1] at hshift
          rw [hshift, ← hcast, hsome']
          rfl
        · intro i hi
          rcases List.mem_cons.mp hi with h0 | hmem
          · omega
          · obtain ⟨j, hj, hji⟩ := List.mem_map.mp hmem
            have := hpos' j hj
            omega
        · rw [List.map_cons, List.map_map]
          have hslice : bs'.map ((fun i => ((a :: t).drop i.toNat).take n) ∘
              (· + (n : Int))) =
              bs'.map (fun j => (((a :: t).drop n).drop j.toNat).take n) := by
            apply List.map_congr_left
            intro j hj
            have hj0 := hpos' j hj
            show ((a :: t).drop (j + (n : Int)).toNat).take n = _
            have htn : (j + (n : Int)).toNat = n + j.toNat := by omega
            rw [htn, ← List.drop_drop]
          rw [hslice, hmap', chunksOf_cons n hn (a :: t) (by simp)]
          rfl
      · cases f with
        | zero => simp only [List.length_cons] at hl; omega
        | succ f' =>
          refine ⟨[0], ?_, by simp, ?_⟩
          · unfold jsChunkLoop
            rw [if_pos hlen]
            have hstep : jsChunkLoop ((a :: t).length : Int) (n : Int)
                (0 + (n : Int)) (f' + 1) = some [] := by
              unfold jsChunkLoop
              rw [if_neg (by simp only [List.length_cons] at hcase ⊢; omega :
                ¬ ((0 : Int) + (n : Int) < ((a :: t).length : Int)))]
            rw [hstep]
            rfl
          · rw [chunksOf_cons n hn _ (by simp)]
            have hdrop : (a :: t).drop n = [] := by
              apply List.drop_eq_nil_of_le
              omega
            rw [hdrop]
            show [((a :: t).drop (0 : Int).toNat).take n] = [(a :: t).take n]
            rfl

/-- C10: the chunk-splitting `for` loop of the source, run at a non-positive
chunk size over a non-empty input, never terminates (no amount of fuel
completes it — its index never reaches the bound); at any chunk size at least
one the loop terminates and computes exactly the chunk decomposition the
(total) pipeline model consumes, with `totalChunks` matching; and the HTTP
entry point passes any provided chunk size through unvalidated. -/
theorem c10_chunk_termination :
    (∀ (csize : Int), csize ≤ 0 → ∀ (rawLen : Int), 0 < rawLen →
      ∀ (fuel : Nat), jsChunkLoop rawLen csize 0 fuel = none) ∧
    (∀ (n : Nat), 1 ≤ n → ∀ (l : List RawLead),
      ∃ bs, jsChunkLoop (l.length : Int) (n : Int) 0 (l.length + 1) = some bs ∧
        bs.map (fun i => (l.drop i.toNat).take n) = chunksOf n l ∧
        ∀ (env : Env) (store : StoreOps Nat) (s0 : Nat) (dryRun : Bool),
          (processBulkLeadImport env store s0 l dryRun
            n).1.batchSummary.chunkStats.totalChunks = bs.length) ∧
    (∀ (c : Int), routeChunkSize (some c) = c) := by
  refine ⟨?_, ?_, fun c => rfl⟩
  · intro csize hc rawLen hl fuel
    exact jsChunkLoop_stuck rawLen csize hc hl fuel 0 (by omega)
  · intro n hn l
    obtain ⟨bs, hsome, _, hmap⟩ :=
      jsChunkLoop_chunksOf n hn (l.length + 1) l (by omega)
    refine ⟨bs, hsome, hmap, ?_⟩
    intro env store s0 dryRun
    show (chunksOf n l).length = bs.length
    rw [← hmap, List.length_map]

/-- Witness for C10 at concrete inputs: chunk size 0 over a 3-row input never
completes, and the route passes the insane chunk size 0 through. -/
theorem c10_chunk_witness :
    jsChunkLoop 3 0 0 50 = none ∧ routeChunkSize (some 0) = 0 :=
  ⟨c10_chunk_termination.1 0 (by decide) 3 (by decide) 50,
   c10_chunk_termination.2.2 0⟩

/-! Intake-idempotence lemmas (C8). -/

theorem isDig_val {c : Char} (h : isDig c = true) :
    48 ≤ c.toNat ∧ c.toNat ≤ 57 := by
  simpa [isDig] using h

theorem jsLowerChar_digit {c : Char} (h : isDig c = true) :
    jsLowerChar c = c := by
  have hv := isDig_val h
  unfold jsLowerChar
  rw [if_neg]
  omega

theorem digit_ne {c k : Char} (h : isDig c = true) (hk : 97 ≤ k.toNat) :
    k ≠ c := by
  intro he
  have hv := isDig_val h
  rw [he] at hk
  omega

theorem letter_ne_dash {k : Char} (hk : 97 ≤ k.toNat) : k ≠ '-' := by
  intro he
  have h45 : ('-').toNat = 45 := by decide
  rw [he, h45] at hk
  omega

theorem pfx_cons_ne {k0 c : Char} (ks cs : List Char) (h : k0 ≠ c) :
    pfx (k0 :: ks) (c :: cs) = false := by
  simp [pfx, h]

theorem hasSub_cons_ne {k0 c : Char} (ks cs : List Char) (h : k0 ≠ c) :
    hasSub (k0 :: ks) (c :: cs) = hasSub (k0 :: ks) cs := by
  show (pfx (k0 :: ks) (c :: cs) || hasSub (k0 :: ks) cs) = hasSub (k0 :: ks) cs
  rw [pfx_cons_ne ks cs h]
  rfl

theorem hasSub_skip4 (k0 : Char) (ks : List Char) (hk : 97 ≤ k0.toNat)
    {a b c d : Char} (ha : isDig a = true) (hb : isDig b = true)
    (hc : isDig c = true) (hd : isDig d = true) (rest : List Char) :
    hasSub (k0 :: ks) (a :: b :: c :: d :: '-' :: rest) =
      hasSub (k0 :: ks) rest := by
  rw [hasSub_cons_ne ks _ (digit_ne ha hk),
    hasSub_cons_ne ks _ (digit_ne hb hk),
    hasSub_cons_ne ks _ (digit_ne hc hk),
    hasSub_cons_ne ks _ (digit_ne hd hk),
    hasSub_cons_ne ks _ (letter_ne_dash hk)]

theorem find?_congr_mem {α : Type} (p q : α → Bool) :
    ∀ (l : List α), (∀ x ∈ l, p x = q x) →
      List.find? p l = List.find? q l := by
  intro l
  induction l with
  | nil => intro _; rfl
  | cons a t ih =>
    intro h
    rw [List.find?_cons, List.find?_cons, h a (List.mem_cons_self a t)]
    cases hqa : q a with
    | true => rfl
    | false => exact ih (fun x hx => h x (List.mem_cons_of_mem a hx))

theorem find?_seasonPairs_skip {a b c d : Char} (ha : isDig a = true)
    (hb : isDig b = true) (hc : isDig c = true) (hd : isDig d = true)
    (rest : List Char) :
    List.find? (fun kv => hasSub kv.1.data (a :: b :: c :: d :: '-' :: rest))
      seasonPairs =
    List.find? (fun kv => hasSub kv.1.data rest) seasonPairs := by
  apply find?_congr_mem
  intro kv hkv
  fin_cases hkv <;>
    exact hasSub_skip4 _ _ (by decide) ha hb hc hd rest

theorem firstMatch4_digits {a b c d : Char} (ha : isDig a = true)
    (hb : isDig b = true) (hc : isDig c = true) (hd : isDig d = true)
    (rest : List Char) :
    firstMatch4 (a :: b :: c :: d :: rest) = some [a, b, c, d] := by
  cases rest with
  | nil =>
    show (if isDig a && isDig b && isDig c && isDig d then some [a, b, c, d]
      else firstMatch4 [b, c, d]) = some [a, b, c, d]
    rw [if_pos (by simp [ha, hb, hc, hd])]
  | cons e rest2 =>
    show (if isDig a && isDig b && isDig c && isDig d then some [a, b, c, d]
      else firstMatch4 (b :: c :: d :: e :: rest2)) = some [a, b, c, d]
    rw [if_pos (by simp [ha, hb, hc, hd])]

theorem strApp_data (s t : String) : (s ++ t).data = s.data ++ t.data := by
  cases s
  cases t
  rfl

theorem normalizeIntake_canon (env : Env) (log : ValidationLog)
    (fi : FieldIssues) (a b c d : Char) (ha : isDig a = true)
    (hb : isDig b = true) (hc : isDig c = true) (hd : isDig d = true)
    (slow scap : String)
    (hmap : List.map jsLowerChar scap.data = slow.data)
    (hfind : List.find? (fun kv => hasSub kv.1.data slow.data) seasonPairs =
      some (slow, scap)) :
    normalizeIntake env (strOf [a, b, c, d] ++ "-" ++ scap) log fi =
      (strOf [a, b, c, d] ++ "-" ++ scap, log, fi) := by
  have hdata : (strOf [a, b, c, d] ++ "-" ++ scap).data =
      a :: b :: c :: d :: '-' :: scap.data := by
    rw [strApp_data, strApp_data]
    rfl
  have hlow : (jsLower (strOf [a, b, c, d] ++ "-" ++ scap)).data =
      a :: b :: c :: d :: '-' :: slow.data := by
    show (List.map jsLowerChar (strOf [a, b, c, d] ++ "-" ++ scap).data) = _
    rw [hdata]
    simp only [List.map_cons]
    rw [jsLowerChar_digit ha, jsLowerChar_digit hb, jsLowerChar_digit hc,
      jsLowerChar_digit hd, hmap,
      show jsLowerChar '-' = '-' from by decide]
  unfold normalizeIntake
  dsimp only
  rw [hlow, firstMatch4_digits ha hb hc hd,
    find?_seasonPairs_skip ha hb hc hd, hfind]
  dsimp only
  rw [if_pos rfl]

/-- C8: intake normalization is the identity — and logs no fix and touches no
tally — on every input already in canonical `<4-digit-year>-<Season>` form,
for all four seasons. -/
theorem c8_intake_idempotent (env : Env) (log : ValidationLog)
    (fi : FieldIssues) (a b c d : Char) (ha : isDig a = true)
    (hb : isDig b = true) (hc : isDig c = true) (hd : isDig d = true)
    (s : String)
    (hs : s ∈ (["Fall", "Spring", "Summer", "Winter"] : List String)) :
    normalizeIntake env (strOf [a, b, c, d] ++ "-" ++ s) log fi =
      (strOf [a, b, c, d] ++ "-" ++ s, log, fi) := by
  simp only [List.mem_cons, List.not_mem_nil, or_false] at hs
  rcases hs with rfl | rfl | rfl | rfl
  · exact normalizeIntake_canon env log fi a b c d ha hb hc hd "fall" "Fall"
      (by decide) (by decide)
  · exact normalizeIntake_canon env log fi a b c d ha hb hc hd "spring"
      "Spring" (by decide) (by decide)
  · exact normalizeIntake_canon env log fi a b c d ha hb hc hd "summer"
      "Summer" (by decide) (by decide)
  · exact normalizeIntake_canon env log fi a b c d ha hb hc hd "winter"
      "Winter" (by decide) (by decide)

/-- Witness for C8 at the spec's concrete example `2025-Fall`. -/
theorem c8_intake_witness :
    normalizeIntake envW "2025-Fall" (initLog 1 {}) [] =
      ("2025-Fall", initLog 1 {}, []) := by
  have h := c8_intake_idempotent envW (initLog 1 {}) [] '2' '0' '2' '5'
    (by decide) (by decide) (by decide) (by decide) "Fall" (by simp)
  have he : strOf ['2', '0', '2', '5'] ++ "-" ++ "Fall" = "2025-Fall" := by
    decide
  rw [he] at h
  exact h

/-! Row-status lemmas (C2, C4, C1, C7). -/

theorem normalizeIntake_status (env : Env) (s : String) (log : ValidationLog)
    (fi : FieldIssues) :
    (normalizeIntake env s log fi).2.1.status = log.status := by
  unfold normalizeIntake
  dsimp only
  repeat' split
  all_goals rfl

theorem normalizeCountry_status (s : String) (log : ValidationLog)
    (fi : FieldIssues) :
    (normalizeCountry s log fi).2.1.status = log.status := by
  unfold normalizeCountry
  dsimp only
  repeat' split
  all_goals rfl

theorem normalizePhone_status (s : String) (log : ValidationLog)
    (fi : FieldIssues) :
    (normalizePhone s log fi).2.1.status = log.status := by
  unfold normalizePhone
  dsimp only
  repeat' split
  all_goals rfl

theorem normalizeEmail_status (s : String) (log : ValidationLog)
    (fi : FieldIssues) :
    (normalizeEmail s log fi).2.1.status = log.status := by
  unfold normalizeEmail
  dsimp only
  repeat' split
  all_goals rfl

theorem normUid_status (env : Env) (raw : RawLead) (log : ValidationLog)
    (fi : FieldIssues) :
    (normUid env raw log fi).2.1.status = log.status := by
  unfold normUid
  split <;> rfl

theorem normName_status (raw : RawLead) (log : ValidationLog)
    (fi : FieldIssues) :
    (normName raw log fi).2.1.status = log.status := by
  unfold normName
  repeat' split
  all_goals rfl

theorem normStage_status (raw : RawLead) (log : ValidationLog)
    (fi : FieldIssues) :
    (normStage raw log fi).2.1.status = log.status := by
  unfold normStage
  split <;> rfl

theorem normDate_status (env : Env) (raw : RawLead) (log : ValidationLog)
    (fi : FieldIssues) :
    (normDate env raw log fi).2.1.status = log.status := by
  unfold normDate
  repeat' split
  all_goals rfl

theorem normIntakeField_status (env : Env) (raw : RawLead)
    (log : ValidationLog) (fi : FieldIssues) :
    (normIntakeField env raw log fi).2.1.status = log.status := by
  unfold normIntakeField
  split
  · exact normalizeIntake_status env _ log fi
  · rfl

theorem normCountryField_status (raw : RawLead) (log : ValidationLog)
    (fi : FieldIssues) :
    (normCountryField raw log fi).2.1.status = log.status := by
  unfold normCountryField
  split
  · exact normalizeCountry_status _ log fi
  · rfl

theorem normPhoneField_status (raw : RawLead) (log : ValidationLog)
    (fi : FieldIssues) :
    (normPhoneField raw log fi).2.1.status = log.status := by
  unfold normPhoneField
  repeat' split
  · exact normalizePhone_status _ log fi
  · exact normalizePhone_status _ log fi
  · rfl

theorem normEmailField_status (raw : RawLead) (log : ValidationLog)
    (fi : FieldIssues) :
    (normEmailField raw log fi).2.1.status = log.status := by
  unfold normEmailField
  split
  · exact normalizeEmail_status _ log fi
  · rfl

theorem normalizeAndValidateLead_status (env : Env) (raw : RawLead)
    (log : ValidationLog) (fi : FieldIssues) :
    (normalizeAndValidateLead env raw log fi).2.1.status = log.status := by
  unfold normalizeAndValidateLead
  dsimp only
  rw [normEmailField_status, normPhoneField_status, normCountryField_status,
    normIntakeField_status, normDate_status, normStage_status,
    normName_status, normUid_status]

theorem rowNorm_status (env : Env) (ros : Roster) (rowNumber : Nat)
    (raw : RawLead) (fi : FieldIssues) :
    (rowNorm env ros rowNumber raw fi).2.2.1.status = .imported := by
  unfold rowNorm
  dsimp only
  rw [show ∀ (l : ValidationLog) (nd : Option NormalizedData),
    ({l with normalizedData := nd} : ValidationLog).status = l.status
    from fun _ _ => rfl]
  rw [normalizeAndValidateLead_status]
  rfl

theorem rowTry_log {σ : Type} (env : Env) (store : StoreOps σ) (dryRun : Bool)
    (ros : Roster) (rowNumber : Nat) (raw : RawLead) (fi : FieldIssues)
    (s : σ) :
    (rowTry env store dryRun ros rowNumber raw fi s).2.1 =
      (rowNorm env ros rowNumber raw fi).2.2.1 := by
  unfold rowTry
  dsimp only
  repeat' split
  all_goals rfl

theorem rowTry_fi {σ : Type} (env : Env) (store : StoreOps σ) (dryRun : Bool)
    (ros : Roster) (rowNumber : Nat) (raw : RawLead) (fi : FieldIssues)
    (s : σ) :
    (rowTry env store dryRun ros rowNumber raw fi s).2.2.1 =
      (rowNorm env ros rowNumber raw fi).2.2.2 := by
  unfold rowTry
  dsimp only
  repeat' split
  all_goals rfl

theorem processRow_ok_case {σ : Type} {env : Env} {store : StoreOps σ}
    {dryRun : Bool} {ros : Roster} {rowNumber : Nat} {raw : RawLead}
    {fi : FieldIssues} {s : σ} {u : Unit} {lg : ValidationLog}
    {fi' : FieldIssues} {s' : σ}
    (hTry : rowTry env store dryRun ros rowNumber raw fi s = (.ok u, lg, fi', s')) :
    processRow env store dryRun ros rowNumber raw fi s =
      (.ok (classify lg), fi', s') := by
  unfold processRow
  rw [hTry]

theorem processRow_err_case {σ : Type} {env : Env} {store : StoreOps σ}
    {dryRun : Bool} {ros : Roster} {rowNumber : Nat} {raw : RawLead}
    {fi : FieldIssues} {s : σ} {e : JSErr} {lg : ValidationLog}
    {fi' : FieldIssues} {s' : σ} {m : String}
    (hTry : rowTry env store dryRun ros rowNumber raw fi s = (.error e, lg, fi', s'))
    (hMsg : getMessage e = .ok m) :
    processRow env store dryRun ros rowNumber raw fi s =
      (.ok {lg with status := .failed, errors := lg.errors ++ [m]}, fi', s') := by
  unfold processRow
  rw [hTry]
  dsimp only
  rw [hMsg]

theorem processRow_escape_case {σ : Type} {env : Env} {store : StoreOps σ}
    {dryRun : Bool} {ros : Roster} {rowNumber : Nat} {raw : RawLead}
    {fi : FieldIssues} {s : σ} {e : JSErr} {lg : ValidationLog}
    {fi' : FieldIssues} {s' : σ} {t : JSErr}
    (hTry : rowTry env store dryRun ros rowNumber raw fi s = (.error e, lg, fi', s'))
    (hMsg : getMessage e = .error t) :
    processRow env store dryRun ros rowNumber raw fi s = (.error t, fi', s') := by
  unfold processRow
  rw [hTry]
  dsimp only
  rw [hMsg]

theorem classify_status_ne_failed (lg : ValidationLog)
    (hst : lg.status = .imported) : (classify lg).status ≠ .failed := by
  unfold classify
  split
  · simp
  · rw [hst]
    simp

/-- C2: a processed row's log entry has status Failed iff its try block
raised an exception (whose message extraction succeeded in the row-level
catch); ImportedWithIssues iff no exception was raised and warnings or
fixesApplied is non-empty; Imported otherwise — and a completed row is never
Failed no matter how many entries its errors list holds.  Entries pushed by
the chunk-level defensive catch are always Failed. -/

theorem c2_status_characterization {σ : Type} (env : Env) (store : StoreOps σ)
    (dryRun : Bool) (ros : Roster) (rowNumber : Nat) (raw : RawLead)
    (fi : FieldIssues) (s : σ) :
    (∀ log fi1 s1,
      processRow env store dryRun ros rowNumber raw fi s = (.ok log, fi1, s1) →
      ((log.status = .failed ↔
         ∃ e, (rowTry env store dryRun ros rowNumber raw fi s).1 = .error e) ∧
       (log.status = .importedWithIssues ↔
         ((rowTry env store dryRun ros rowNumber raw fi s).1 = .ok () ∧
          (log.warnings ≠ [] ∨ log.fixesApplied ≠ []))) ∧
       (log.status = .imported ↔
         ((rowTry env store dryRun ros rowNumber raw fi s).1 = .ok () ∧
          log.warnings = [] ∧ log.fixesApplied = [])) ∧
       ((rowTry env store dryRun ros rowNumber raw fi s).1 = .ok () →
         log.errors ≠ [] → log.status ≠ .failed))) ∧
    (∀ (num : Nat) (r : RawLead) (e : JSErr),
      (chunkFailEntry num r e).status = .failed) := by
  constructor
  · intro log fi1 s1 hrun
    rcases hTry : rowTry env store dryRun ros rowNumber raw fi s with ⟨res, lg, fi', s'⟩
    dsimp only
    have hst : lg.status = .imported := by
      have h1 := rowTry_log env store dryRun ros rowNumber raw fi s
      rw [hTry] at h1
      dsimp only at h1
      rw [h1]
      exact rowNorm_status env ros rowNumber raw fi
    cases res with
    | ok u =>
      cases u
      rw [processRow_ok_case hTry] at hrun
      simp only [Prod.mk.injEq, Except.ok.injEq] at hrun
      obtain ⟨hlg, hfi, hs1⟩ := hrun
      subst hlg
      unfold classify
      split
      case isTrue hcond =>
        refine ⟨by simp, ?_, ?_, by intro _ _; simp⟩
        · exact ⟨fun _ => ⟨rfl, hcond⟩, fun _ => rfl⟩
        · constructor
          · intro him
            simp at him
          · rintro ⟨_, hw, hf⟩
            rw [hw, hf] at hcond
            simp at hcond
      case isFalse hcond =>
        push_neg at hcond
        refine ⟨by rw [hst]; simp, ?_, ?_, by intro _ _; rw [hst]; simp⟩
        · rw [hst]
          constructor
          · intro him
            simp at him
          · rintro ⟨_, hcd⟩
            rcases hcd with hw | hf
            · exact absurd hcond.1 hw
            · exact absurd hcond.2 hf
        · rw [hst]
          simp [hcond.1, hcond.2]
    | error e =>
      cases hMsg : getMessage e with
      | ok m =>
        rw [processRow_err_case hTry hMsg] at hrun
        simp only [Prod.mk.injEq, Except.ok.injEq] at hrun
        obtain ⟨hlg, hfi, hs1⟩ := hrun
        subst hlg
        refine ⟨⟨fun _ => ⟨e, rfl⟩, fun _ => rfl⟩, ?_, ?_, ?_⟩
        · constructor
          · intro him
            simp at him
          · rintro ⟨hok, _⟩
            simp at hok
        · constructor
          · intro him
            simp at him
          · rintro ⟨hok, _, _⟩
            simp at hok
        · intro hok
          simp at hok
      | error t =>
        rw [processRow_escape_case hTry hMsg] at hrun
        simp at hrun
  · intro num r e
    rfl

/-- Witness for C2: a concrete run whose store rejects the first insert with
the message `boom` yields a Failed entry, via the characterization. -/
theorem c2_status_witness : c2log.status = .failed :=
  (((c2_status_characterization envW (failMsgStore "boom" 0) false
      ⟨none, [], none⟩ 1 rawW [] 0).1 c2log c2res.2.1 c2res.2.2 rfl).1).mpr
    ⟨.exn (some "boom"), rfl⟩


theorem rowTry_failMsg_ok (env : Env) (ros : Roster) (n : Nat) (raw : RawLead)
    (fi : FieldIssues) (m : String) (k s : Nat) (hs : s ≠ k) :
    rowTry env (failMsgStore m k) false ros n raw fi s =
      (.ok (), (rowNorm env ros n raw fi).2.2.1,
       (rowNorm env ros n raw fi).2.2.2, s + 1) := by
  unfold rowTry failMsgStore
  dsimp only
  rw [if_neg hs]
  dsimp only
  rw [ite_self]
  dsimp only
  rw [ite_self]
  rfl

theorem rowTry_failMsg_err (env : Env) (ros : Roster) (n : Nat) (raw : RawLead)
    (fi : FieldIssues) (m : String) (k : Nat) :
    rowTry env (failMsgStore m k) false ros n raw fi k =
      (.error (.exn (some m)), (rowNorm env ros n raw fi).2.2.1,
       (rowNorm env ros n raw fi).2.2.2, k + 1) := by
  unfold rowTry failMsgStore
  dsimp only
  rw [if_pos rfl]
  rfl

theorem bump_failed_of_ne (c : Counters) (st : RowStatus)
    (h : st ≠ .failed) : (bump c st).failed = c.failed := by
  cases st with
  | imported => rfl
  | importedWithIssues => rfl
  | failed => exact absurd rfl h


theorem bump_failed_self (c : Counters) : (bump c .failed).failed = c.failed + 1 := rfl

/-- C4: when the store rejects exactly the second insert of a 3-row chunk
with a message-bearing error, exactly that row is marked Failed with the
message appended as the last entry of its errors, both other rows are
processed and classified normally (never Failed), the batch counts one failed
row, and the chunk still counts as successful, not failed. -/
theorem c4_single_row_failure_isolated (env : Env) (r1 r2 r3 : RawLead)
    (m : String) (hm : m ≠ "") :
    ∃ s1 s3, s1 ≠ RowStatus.failed ∧ s3 ≠ RowStatus.failed ∧
      ((processBulkLeadImport env (failMsgStore m 1) 0 [r1, r2, r3] false
        3).1.validationLog.map ValidationLog.status) = [s1, .failed, s3] ∧
      (((processBulkLeadImport env (failMsgStore m 1) 0 [r1, r2, r3] false
        3).1.validationLog.map (fun l => l.errors.getLast?)).get? 1 =
        some (some m)) ∧
      (processBulkLeadImport env (failMsgStore m 1) 0 [r1, r2, r3] false
        3).1.batchSummary.failed = 1 ∧
      (processBulkLeadImport env (failMsgStore m 1) 0 [r1, r2, r3] false
        3).1.batchSummary.chunkStats.successfulChunks = 1 ∧
      (processBulkLeadImport env (failMsgStore m 1) 0 [r1, r2, r3] false
        3).1.batchSummary.chunkStats.failedChunks = 0 := by
  have hmsg : getMessage (.exn (some m)) = .ok m := by
    simp only [getMessage]
    rw [if_neg hm]
  have hrow1 := processRow_ok_case
    (rowTry_failMsg_ok env (mkRoster []) 1 r1 [] m 1 0 (by decide))
  have hrow2 := processRow_err_case
    (rowTry_failMsg_err env (mkRoster []) 2 r2
      (rowNorm env (mkRoster []) 1 r1 []).2.2.2 m 1) hmsg
  have hrow3 := processRow_ok_case
    (rowTry_failMsg_ok env (mkRoster []) 3 r3
      (rowNorm env (mkRoster []) 2 r2
        (rowNorm env (mkRoster []) 1 r1 []).2.2.2).2.2.2 m 1 2 (by decide))
  refine ⟨(classify (rowNorm env (mkRoster []) 1 r1 []).2.2.1).status,
    (classify (rowNorm env (mkRoster []) 3 r3
      (rowNorm env (mkRoster []) 2 r2
        (rowNorm env (mkRoster []) 1 r1 []).2.2.2).2.2.2).2.2.1).status,
    classify_status_ne_failed _ (rowNorm_status env (mkRoster []) 1 r1 []),
    classify_status_ne_failed _ (rowNorm_status env (mkRoster []) 3 r3 _),
    ?_, ?_, ?_, ?_, ?_⟩ <;>
  · unfold processBulkLeadImport
    dsimp only
    rw [show (failMsgStore m 1).getAllUsers 0 = (Except.ok [], 0) from rfl]
    dsimp only
    rw [show chunksOf 3 [r1, r2, r3] = [[r1, r2, r3]] from rfl]
    simp only [runChunks, processChunk, runRows, Nat.zero_mul, Nat.zero_add,
      Nat.add_zero, Nat.reduceAdd, hrow1, hrow2, hrow3]
    simp [bump_failed_of_ne _ _ (classify_status_ne_failed _
        (rowNorm_status env (mkRoster []) 1 r1 [])),
      bump_failed_of_ne _ _ (classify_status_ne_failed _
        (rowNorm_status env (mkRoster []) 3 r3 _)),
      bump_failed_self, zeroC, List.getLast?_concat]

/-- Witness for C4 at a concrete environment, rows and message. -/
theorem c4_isolation_witness :
    ∃ s1 s3, s1 ≠ RowStatus.failed ∧ s3 ≠ RowStatus.failed ∧
      ((processBulkLeadImport envW (failMsgStore "boom" 1) 0
        [rawW, rawW, rawW] false 3).1.validationLog.map
        ValidationLog.status) = [s1, .failed, s3] ∧
      (((processBulkLeadImport envW (failMsgStore "boom" 1) 0
        [rawW, rawW, rawW] false 3).1.validationLog.map
        (fun l => l.errors.getLast?)).get? 1 = some (some "boom")) ∧
      (processBulkLeadImport envW (failMsgStore "boom" 1) 0
        [rawW, rawW, rawW] false 3).1.batchSummary.failed = 1 ∧
      (processBulkLeadImport envW (failMsgStore "boom" 1) 0
        [rawW, rawW, rawW] false
        3).1.batchSummary.chunkStats.successfulChunks = 1 ∧
      (processBulkLeadImport envW (failMsgStore "boom" 1) 0
        [rawW, rawW, rawW] false
        3).1.batchSummary.chunkStats.failedChunks = 0 :=
  c4_single_row_failure_isolated envW rawW rawW rawW "boom" (by decide)


theorem tame_fst_ne {σ α β : Type} {op : σ → α → Except JSErr β × σ}
    (hop : ∀ s p, (op s p).1 ≠ .error .nullish) {s : σ} {p : α} {e : JSErr}
    {s' : σ} (heq : op s p = (.error e, s')) : e ≠ .nullish := by
  intro hen
  subst hen
  have h := hop s p
  rw [heq] at h
  exact h rfl

theorem rowTry_not_nullish {σ : Type} (env : Env) (store : StoreOps σ)
    (dryRun : Bool) (ros : Roster) (n : Nat) (raw : RawLead)
    (fi : FieldIssues) (s : σ) (ht : tameStore store) :
    (rowTry env store dryRun ros n raw fi s).1 ≠ .error .nullish := by
  unfold rowTry
  dsimp only
  split
  · simp
  · split
    case _ e s1 heq =>
      simpa using tame_fst_ne ht.1 heq
    case _ nl s1 heq =>
      split
      case _ e s2 heq2 =>
        by_cases hr : nonBlank (rowNorm env ros n raw fi).1.remarks = true
        · rw [if_pos hr] at heq2
          simpa using tame_fst_ne ht.2.1 heq2
        · rw [if_neg hr] at heq2
          simp at heq2
      case _ u s2 heq2 =>
        split
        case _ e s3 heq3 =>
          by_cases hh : (nonBlankStr (rowNorm env ros n raw fi).2.1.currentStage = true ∧
              (rowNorm env ros n raw fi).2.1.currentStage ≠ "Yet to Assign")
          · rw [if_pos hh] at heq3
            simpa using tame_fst_ne ht.2.2 heq3
          · rw [if_neg hh] at heq3
            simp at heq3
        case _ u2 s3 heq3 =>
          simp

theorem getMessage_ok_of_ne {e : JSErr} (he : e ≠ .nullish) :
    ∃ m, getMessage e = .ok m := by
  cases e with
  | nullish => exact absurd rfl he
  | exn msg =>
    cases msg with
    | none => exact ⟨_, rfl⟩
    | some m => exact ⟨_, rfl⟩

theorem processRow_tame {σ : Type} (env : Env) (store : StoreOps σ)
    (dryRun : Bool) (ros : Roster) (n : Nat) (raw : RawLead)
    (fi : FieldIssues) (s : σ) (ht : tameStore store) :
    ∃ log fi1 s1, processRow env store dryRun ros n raw fi s =
      (.ok log, fi1, s1) := by
  rcases hTry : rowTry env store dryRun ros n raw fi s with ⟨res, lg, fi', s'⟩
  cases res with
  | ok u =>
    exact ⟨classify lg, fi', s', processRow_ok_case hTry⟩
  | error e =>
    have hne : e ≠ .nullish := by
      have h := rowTry_not_nullish env store dryRun ros n raw fi s ht
      rw [hTry] at h
      simpa using h
    obtain ⟨m, hm⟩ := getMessage_ok_of_ne hne
    exact ⟨_, fi', s', processRow_err_case hTry hm⟩

theorem bump_sum (c : Counters) (st : RowStatus) :
    (bump c st).imported + (bump c st).iwi + (bump c st).failed =
      c.imported + c.iwi + c.failed + 1 := by
  cases st <;> simp [bump] <;> omega

theorem runRows_tame {σ : Type} (env : Env) (store : StoreOps σ)
    (dryRun : Bool) (ros : Roster) (ht : tameStore store) :
    ∀ (rows : List RawLead) (n : Nat) (fi : FieldIssues) (s : σ),
      (runRows env store dryRun ros rows n fi s).escape = none ∧
      (runRows env store dryRun ros rows n fi s).cnt.imported +
        (runRows env store dryRun ros rows n fi s).cnt.iwi +
        (runRows env store dryRun ros rows n fi s).cnt.failed = rows.length := by
  intro rows
  induction rows with
  | nil => intro n fi s; exact ⟨rfl, rfl⟩
  | cons raw rest ih =>
    intro n fi s
    obtain ⟨log, fi1, s1, hpr⟩ := processRow_tame env store dryRun ros n raw fi s ht
    simp only [runRows, hpr]
    obtain ⟨hesc, hsum⟩ := ih (n + 1) fi1 s1
    refine ⟨hesc, ?_⟩
    rw [bump_sum, hsum]
    simp

theorem runChunks_tame {σ : Type} (env : Env) (store : StoreOps σ)
    (dryRun : Bool) (ros : Roster) (chunkSize : Nat) (ht : tameStore store) :
    ∀ (chunks : List (List RawLead)) (idx : Nat) (fi : FieldIssues) (s : σ),
      (runChunks env store dryRun ros chunkSize chunks idx fi s).cnt.imported +
        (runChunks env store dryRun ros chunkSize chunks idx fi s).cnt.iwi +
        (runChunks env store dryRun ros chunkSize chunks idx fi s).cnt.failed =
        (chunks.map List.length).sum := by
  intro chunks
  induction chunks with
  | nil => intro idx fi s; rfl
  | cons chunk rest ih =>
    intro idx fi s
    simp only [runChunks]
    have hrr := runRows_tame env store dryRun ros ht chunk
      (idx * chunkSize + 1) fi s
    simp only [processChunk, hrr.1]
    rw [List.map_cons, List.sum_cons]
    have hsum := hrr.2
    have hrec := ih (idx + 1)
      (runRows env store dryRun ros chunk (idx * chunkSize + 1) fi s).fi
      (runRows env store dryRun ros chunk (idx * chunkSize + 1) fi s).st
    omega

/-- C1 amended: whenever no chunk-level catch can fire mid-chunk — in
particular whenever every error the store throws is message-bearing (not a
nullish value), so every exception is absorbed by the row-level catch — the
counters satisfy `imported + importedWithIssues + failed = totalRows`; and
`totalChunks = ceil(totalRows / chunkSize)` holds on every run with
`chunkSize ≥ 1`. -/
theorem c1_counter_sum {σ : Type} (env : Env) (store : StoreOps σ) (s0 : σ)
    (rawLeads : List RawLead) (dryRun : Bool) (chunkSize : Nat)
    (h1 : 1 ≤ chunkSize) (ht : tameStore store) :
    (processBulkLeadImport env store s0 rawLeads dryRun
        chunkSize).1.batchSummary.imported +
      (processBulkLeadImport env store s0 rawLeads dryRun
        chunkSize).1.batchSummary.importedWithIssues +
      (processBulkLeadImport env store s0 rawLeads dryRun
        chunkSize).1.batchSummary.failed = rawLeads.length ∧
    (processBulkLeadImport env store s0 rawLeads dryRun
      chunkSize).1.batchSummary.totalRows = rawLeads.length ∧
    (processBulkLeadImport env store s0 rawLeads dryRun
      chunkSize).1.batchSummary.chunkStats.totalChunks =
      (rawLeads.length + chunkSize - 1) / chunkSize := by
  refine ⟨?_, rfl, ?_⟩
  · unfold processBulkLeadImport
    dsimp only
    rw [runChunks_tame env store dryRun _ chunkSize ht]
    rw [chunksOf_sum_length chunkSize h1 rawLeads.length rawLeads (Nat.le_refl _)]
  · unfold processBulkLeadImport
    dsimp only
    exact chunksOf_length chunkSize h1 rawLeads.length rawLeads (Nat.le_refl _)

/-- C1 counterexample: with a store that rejects the second insert by
throwing a nullish value, the row-level catch itself throws while reading
`.message`, the chunk-level catch re-marks both rows of the chunk Failed, and
the already-classified first row is double-counted: the counters sum to 3 on
a 2-row batch, and the log holds 3 entries for 2 rows. -/
theorem c1_sum_counterexample :
    (processBulkLeadImport envW nullStoreW 0 [rawW, rawW] false
      2).1.batchSummary.totalRows = 2 ∧
    (processBulkLeadImport envW nullStoreW 0 [rawW, rawW] false
        2).1.batchSummary.imported +
      (processBulkLeadImport envW nullStoreW 0 [rawW, rawW] false
        2).1.batchSummary.importedWithIssues +
      (processBulkLeadImport envW nullStoreW 0 [rawW, rawW] false
        2).1.batchSummary.failed = 3 ∧
    (processBulkLeadImport envW nullStoreW 0 [rawW, rawW] false
      2).1.validationLog.length = 3 := by
  refine ⟨by decide, by decide, by decide⟩

/-- Witness for C1's amended statement at a concrete tame store. -/
theorem c1_sum_witness :
    (processBulkLeadImport envW okStoreW 0 [rawW] false
        1).1.batchSummary.imported +
      (processBulkLeadImport envW okStoreW 0 [rawW] false
        1).1.batchSummary.importedWithIssues +
      (processBulkLeadImport envW okStoreW 0 [rawW] false
        1).1.batchSummary.failed = [rawW].length ∧
    (processBulkLeadImport envW okStoreW 0 [rawW] false
      1).1.batchSummary.totalRows = [rawW].length ∧
    (processBulkLeadImport envW okStoreW 0 [rawW] false
      1).1.batchSummary.chunkStats.totalChunks =
      ([rawW].length + 1 - 1) / 1 :=
  c1_counter_sum envW okStoreW 0 [rawW] false 1 (by decide)
    ⟨fun s p => by simp [okStoreW], fun s p => by simp [okStoreW],
     fun s p => by simp [okStoreW]⟩


theorem rowTry_dry {σ : Type} (env : Env) (store : StoreOps σ) (ros : Roster)
    (n : Nat) (raw : RawLead) (fi : FieldIssues) (s : σ) :
    rowTry env store true ros n raw fi s =
      (.ok (), (rowNorm env ros n raw fi).2.2.1,
       (rowNorm env ros n raw fi).2.2.2, s) := by
  unfold rowTry
  dsimp only
  rw [if_pos rfl]

theorem processRow_dry {σ : Type} (env : Env) (store : StoreOps σ)
    (ros : Roster) (n : Nat) (raw : RawLead) (fi : FieldIssues) (s : σ) :
    processRow env store true ros n raw fi s =
      (.ok (classify (rowNorm env ros n raw fi).2.2.1),
       (rowNorm env ros n raw fi).2.2.2, s) :=
  processRow_ok_case (rowTry_dry env store ros n raw fi s)

theorem rowTry_wet_ok {σ : Type} (env : Env) (store : StoreOps σ)
    (ros : Roster) (n : Nat) (raw : RawLead) (fi : FieldIssues) (s : σ)
    (hok : createOk store) :
    ∃ s', rowTry env store false ros n raw fi s =
      (.ok (), (rowNorm env ros n raw fi).2.2.1,
       (rowNorm env ros n raw fi).2.2.2, s') := by
  obtain ⟨v, s1, hcl⟩ := hok.1 s (mkLeadPayload (rowNorm env ros n raw fi).1
    (rowNorm env ros n raw fi).2.1 ros.managerId)
  unfold rowTry
  dsimp only
  rw [if_neg (by decide : ¬ (false = true)), hcl]
  dsimp only
  by_cases hr : nonBlank (rowNorm env ros n raw fi).1.remarks = true
  · obtain ⟨s2, hcr⟩ := hok.2.1 s1 (mkRemarkPayload (rowNorm env ros n raw fi).1
      (rowNorm env ros n raw fi).2.1 ros.managerId v.id)
    rw [if_pos hr, hcr]
    dsimp only
    by_cases hh : (nonBlankStr (rowNorm env ros n raw fi).2.1.currentStage = true ∧
        (rowNorm env ros n raw fi).2.1.currentStage ≠ "Yet to Assign")
    · obtain ⟨s3, hch⟩ := hok.2.2 s2 (mkHistoryPayload
        (rowNorm env ros n raw fi).1 (rowNorm env ros n raw fi).2.1
        ros.managerId v.id)
      rw [if_pos hh, hch]
      exact ⟨s3, rfl⟩
    · rw [if_neg hh]
      exact ⟨s2, rfl⟩
  · rw [if_neg hr]
    dsimp only
    by_cases hh : (nonBlankStr (rowNorm env ros n raw fi).2.1.currentStage = true ∧
        (rowNorm env ros n raw fi).2.1.currentStage ≠ "Yet to Assign")
    · obtain ⟨s3, hch⟩ := hok.2.2 s1 (mkHistoryPayload
        (rowNorm env ros n raw fi).1 (rowNorm env ros n raw fi).2.1
        ros.managerId v.id)
      rw [if_pos hh, hch]
      exact ⟨s3, rfl⟩
    · rw [if_neg hh]
      exact ⟨s1, rfl⟩

theorem processRow_wet {σ : Type} (env : Env) (store : StoreOps σ)
    (ros : Roster) (n : Nat) (raw : RawLead) (fi : FieldIssues) (s : σ)
    (hok : createOk store) :
    ∃ s', processRow env store false ros n raw fi s =
      (.ok (classify (rowNorm env ros n raw fi).2.2.1),
       (rowNorm env ros n raw fi).2.2.2, s') := by
  obtain ⟨s', hw⟩ := rowTry_wet_ok env store ros n raw fi s hok
  exact ⟨s', processRow_ok_case hw⟩

theorem runRows_dry_eq {σ : Type} (env : Env) (store : StoreOps σ)
    (ros : Roster) :
    ∀ (rows : List RawLead) (n : Nat) (fi : FieldIssues) (s : σ),
      runRows env store true ros rows n fi s =
        ⟨(dryRows env ros rows n fi).1, (dryRows env ros rows n fi).2.1,
         (dryRows env ros rows n fi).2.2, s, none⟩ := by
  intro rows
  induction rows with
  | nil => intro n fi s; rfl
  | cons raw rest ih =>
    intro n fi s
    simp only [runRows, processRow_dry, dryRows]
    rw [ih]

theorem runRows_wet_eq {σ : Type} (env : Env) (store : StoreOps σ)
    (ros : Roster) (hok : createOk store) :
    ∀ (rows : List RawLead) (n : Nat) (fi : FieldIssues) (s : σ),
      ∃ s', runRows env store false ros rows n fi s =
        ⟨(dryRows env ros rows n fi).1, (dryRows env ros rows n fi).2.1,
         (dryRows env ros rows n fi).2.2, s', none⟩ := by
  intro rows
  induction rows with
  | nil => intro n fi s; exact ⟨s, rfl⟩
  | cons raw rest ih =>
    intro n fi s
    obtain ⟨s1, hw⟩ := processRow_wet env store ros n raw fi s hok
    obtain ⟨s2, hrec⟩ := ih (n + 1) (rowNorm env ros n raw fi).2.2.2 s1
    refine ⟨s2, ?_⟩
    simp only [runRows, hw, dryRows]
    rw [hrec]

theorem runChunks_dry_eq {σ : Type} (env : Env) (store : StoreOps σ)
    (ros : Roster) (csize : Nat) :
    ∀ (chunks : List (List RawLead)) (idx : Nat) (fi : FieldIssues) (s : σ),
      runChunks env store true ros csize chunks idx fi s =
        ⟨(dryChunksAcc env ros csize chunks idx fi).1,
         (dryChunksAcc env ros csize chunks idx fi).2.1,
         chunks.length, 0,
         (dryChunksAcc env ros csize chunks idx fi).2.2, s⟩ := by
  intro chunks
  induction chunks with
  | nil => intro idx fi s; rfl
  | cons chunk rest ih =>
    intro idx fi s
    simp only [runChunks, processChunk, runRows_dry_eq, dryChunksAcc]
    rw [ih]
    simp [Nat.add_comm]

theorem runChunks_wet_eq {σ : Type} (env : Env) (store : StoreOps σ)
    (ros : Roster) (csize : Nat) (hok : createOk store) :
    ∀ (chunks : List (List RawLead)) (idx : Nat) (fi : FieldIssues) (s : σ),
      ∃ s', runChunks env store false ros csize chunks idx fi s =
        ⟨(dryChunksAcc env ros csize chunks idx fi).1,
         (dryChunksAcc env ros csize chunks idx fi).2.1,
         chunks.length, 0,
         (dryChunksAcc env ros csize chunks idx fi).2.2, s'⟩ := by
  intro chunks
  induction chunks with
  | nil => intro idx fi s; exact ⟨s, rfl⟩
  | cons chunk rest ih =>
    intro idx fi s
    obtain ⟨s1, hw⟩ := runRows_wet_eq env store ros hok chunk
      (idx * csize + 1) fi s
    obtain ⟨s2, hrec⟩ := ih (idx + 1)
      (dryRows env ros chunk (idx * csize + 1) fi).2.2 s1
    refine ⟨s2, ?_⟩
    simp only [runChunks, processChunk, hw, dryChunksAcc]
    rw [hrec]
    simp [Nat.add_comm]

/-- C7: against a store whose create operations all succeed, a dry run and a
wet run over the same input produce identical validation logs and identical
batch counts (total, imported, importedWithIssues, failed) and chunk
statistics — persistence (the store-state thread) is the only behavioural
difference. -/
theorem c7_dry_run_equiv {σ : Type} (env : Env) (store : StoreOps σ) (s0 : σ)
    (rawLeads : List RawLead) (chunkSize : Nat) (hok : createOk store) :
    (processBulkLeadImport env store s0 rawLeads true chunkSize).1.validationLog =
      (processBulkLeadImport env store s0 rawLeads false chunkSize).1.validationLog ∧
    (processBulkLeadImport env store s0 rawLeads true
      chunkSize).1.batchSummary.totalRows =
      (processBulkLeadImport env store s0 rawLeads false
        chunkSize).1.batchSummary.totalRows ∧
    (processBulkLeadImport env store s0 rawLeads true
      chunkSize).1.batchSummary.imported =
      (processBulkLeadImport env store s0 rawLeads false
        chunkSize).1.batchSummary.imported ∧
    (processBulkLeadImport env store s0 rawLeads true
      chunkSize).1.batchSummary.importedWithIssues =
      (processBulkLeadImport env store s0 rawLeads false
        chunkSize).1.batchSummary.importedWithIssues ∧
    (processBulkLeadImport env store s0 rawLeads true
      chunkSize).1.batchSummary.failed =
      (processBulkLeadImport env store s0 rawLeads false
        chunkSize).1.batchSummary.failed ∧
    (processBulkLeadImport env store s0 rawLeads true
      chunkSize).1.batchSummary.chunkStats =
      (processBulkLeadImport env store s0 rawLeads false
        chunkSize).1.batchSummary.chunkStats := by
  obtain ⟨s', hw⟩ := runChunks_wet_eq env store
    (match (store.getAllUsers s0).1 with
     | .error _ => (⟨none, [], none⟩ : Roster)
     | .ok users => mkRoster users) chunkSize hok
    (chunksOf chunkSize rawLeads) 0 [] (store.getAllUsers s0).2
  unfold processBulkLeadImport
  dsimp only
  rw [runChunks_dry_eq, hw]
  exact ⟨rfl, rfl, rfl, rfl, rfl, rfl⟩

/-- Witness for C7 at a concrete always-succeeding store. -/
theorem c7_dry_run_witness :
    (processBulkLeadImport envW okStoreW 0 [rawW] true 1).1.validationLog =
      (processBulkLeadImport envW okStoreW 0 [rawW] false 1).1.validationLog :=
  (c7_dry_run_equiv envW okStoreW 0 [rawW] 1
    ⟨fun s _ => ⟨⟨s⟩, s + 1, rfl⟩, fun s _ => ⟨s, rfl⟩,
     fun s _ => ⟨s, rfl⟩⟩).1

end GCRM
